import Mathlib

/-!
# Message service of the chat server (`sam/service/message.go`)

A shallow embedding of the message orchestration service: message create / update /
delete, flag toggling (react, pin, bookmark), hydration (`preload`), event emission and
mention extraction / synchronisation.

The service talks to collaborators that live in other packages (repositories, user
directory, event service, transaction wrapper).  They are modelled as operations over an
explicit `Repo` state; every call is recorded in `Repo.log`, and a collaborator call can
be made to fail through the `fault` table of the service handle.

Embedded source functions: `Create`, `Update`, `Delete`, `flag` with `React`,
`RemoveReaction`, `Pin`, `RemovePin`, `Bookmark`, `RemoveBookmark`, `preload` with its four
stages, `sendEvent`, `sendFlagEvent`, `extractMentions`, `updateMentions`.  `Find`,
`FindThreads` and `MarkAsRead` are not embedded; no statement below is about them.

The one loop of the source that can run forever (the reply-to walk in `Create`) takes a
bound on its rounds; a run that exhausts every bound has the outcome `diverge`.
-/

set_option linter.dupNamespace false

namespace Crust

/-! ## Errors -/

/-- Error values: `errors.New` / `errors.Errorf`, `errors.Wrap`, the repository
sentinels, any other collaborator failure, and a nil-pointer dereference. -/
inductive Err where
  | new (msg : String)
  | wrap (cause : Err) (msg : String)
  | ErrMessageFlagNotFound
  | ErrMessageNotFound
  | ErrUserNotFound
  | persistence (code : Nat)
  | nilDereference
deriving DecidableEq

/-- Go `errors.Wrap(err, msg)`: nil stays nil. -/
def errorsWrap (err : Option Err) (msg : String) : Option Err :=
  match err with
  | none => none
  | some e => some (Err.wrap e msg)

/-! ## Entities (package `types`, fields used by the service) -/

/-- Modelled from the spec: the message type tag of `types.Message` ("plain, attachment,
inline-image, and other system variants"); the declaration is not part of the source
files at hand. -/
inductive MessageType where
  | simpleMessage
  | channelEvent
  | inlineImage
  | attachment
deriving DecidableEq

/-- Modelled from the spec: user record of the user directory (`systemTypes.User`). -/
structure User where
  ID : Nat := 0
deriving DecidableEq

/-- Modelled from the spec: mention record (`types.Mention`), with the fields the service
reads or writes. -/
structure Mention where
  ID : Nat := 0
  ChannelID : Nat := 0
  MessageID : Nat := 0
  UserID : Nat := 0
  MentionedByID : Nat := 0
deriving DecidableEq

/-- Modelled from the spec: flag record (`types.MessageFlag`), with the fields the service
reads or writes. -/
structure MessageFlag where
  ID : Nat := 0
  UserID : Nat := 0
  ChannelID : Nat := 0
  MessageID : Nat := 0
  Flag : String := ""
  DeletedAt : Option Nat := none
deriving DecidableEq

/-- Modelled from the spec: attachment payload (`types.Attachment`). -/
structure Attachment where
  ID : Nat := 0
deriving DecidableEq

/-- Modelled from the spec: attachment bound to a message (`types.MessageAttachment`). -/
structure MessageAttachment where
  MessageID : Nat := 0
  Attachment : Attachment := {}
deriving DecidableEq

/-- Modelled from the spec: message record (`types.Message`), with the fields the service
reads or writes, the transient hydrated ones included.  Ids are natural numbers (the
service does no arithmetic on them); `Replies` is the counter the service increments. -/
structure Message where
  ID : Nat := 0
  ChannelID : Nat := 0
  ReplyTo : Nat := 0
  UserID : Nat := 0
  Message : String := ""
  Type_ : MessageType := MessageType.simpleMessage
  Replies : Nat := 0
  DeletedAt : Option Nat := none
  User : Option User := none
  Flags : List MessageFlag := []
  Mentions : List Mention := []
  Attachment : Option Attachment := none
deriving DecidableEq

/-! ## Collaborator calls, repository state, outcomes -/

/-- Calls the service issues to its collaborators, with their arguments. -/
inductive Call where
  | txBegin
  | txCommit
  | txRollback
  | FindMessageByID (id : Nat)
  | CreateMessage (m : Message)
  | UpdateMessage (m : Message)
  | DeleteMessageByID (id : Nat)
  | IncReplyCount (id : Nat)
  | DecReplyCount (id : Nat)
  | PrefillThreadParticipants (ids : List Nat)
  | unreadsInc (channelID threadID userID : Nat)
  | unreadsDec (channelID threadID userID : Nat)
  | mentionsFindByMessageIDs (ids : List Nat)
  | mentionsCreate (m : Mention)
  | mentionsDeleteByID (id : Nat)
  | mentionsDeleteByMessageID (id : Nat)
  | mflagFindByFlag (messageID ownerID : Nat) (flag : String)
  | mflagFindByMessageIDs (ids : List Nat)
  | mflagCreate (f : MessageFlag)
  | mflagDeleteByID (id : Nat)
  | FindAttachmentByMessageID (ids : List Nat)
  | usrFindByID (id : Nat)
  | evlMessage (m : Message)
  | evlMessageFlag (f : MessageFlag)
deriving DecidableEq

/-- A call that hands an event to the event service. -/
def Call.isEmit : Call → Bool
  | Call.evlMessage _ => true
  | Call.evlMessageFlag _ => true
  | _ => false

/-- A call that writes to a store (messages, mentions, flags, unread counters). -/
def Call.isWrite : Call → Bool
  | Call.CreateMessage _ => true
  | Call.UpdateMessage _ => true
  | Call.DeleteMessageByID _ => true
  | Call.IncReplyCount _ => true
  | Call.DecReplyCount _ => true
  | Call.unreadsInc _ _ _ => true
  | Call.unreadsDec _ _ _ => true
  | Call.mentionsCreate _ => true
  | Call.mentionsDeleteByID _ => true
  | Call.mentionsDeleteByMessageID _ => true
  | Call.mflagCreate _ => true
  | Call.mflagDeleteByID _ => true
  | _ => false

/-- State of the collaborators: the stores of the persistence gateway, the user
directory, the id generator, and the record of calls issued so far (oldest first). -/
structure Repo where
  messages : List Message := []
  mflags : List MessageFlag := []
  mentions : List Mention := []
  attachments : List MessageAttachment := []
  users : List User := []
  nextID : Nat := 1
  log : List Call := []

/-- Result of running an operation: success with a value, failure with an error (both
with the state reached), or no result at all (the loop never ends). -/
inductive Outcome (α : Type) where
  | ok (a : α) (r : Repo)
  | fail (e : Err) (r : Repo)
  | diverge

/-- State reached, if the operation returned. -/
def Outcome.repo {α : Type} : Outcome α → Option Repo
  | Outcome.ok _ r => some r
  | Outcome.fail _ r => some r
  | Outcome.diverge => none

/-- Error returned, if any. -/
def Outcome.err {α : Type} : Outcome α → Option Err
  | Outcome.ok _ _ => none
  | Outcome.fail e _ => some e
  | Outcome.diverge => none

/-- Value returned on success. -/
def Outcome.val {α : Type} : Outcome α → Option α
  | Outcome.ok a _ => some a
  | Outcome.fail _ _ => none
  | Outcome.diverge => none

/-- An operation against the collaborators. -/
abbrev Op (α : Type) : Type := Repo → Outcome α

/-- Sequencing: an error or a non-terminating step ends the run. -/
def Op.bind {α β : Type} (x : Op α) (f : α → Op β) : Op β := fun r =>
  match x r with
  | Outcome.ok a r1 => f a r1
  | Outcome.fail e r1 => Outcome.fail e r1
  | Outcome.diverge => Outcome.diverge

instance : Monad Op where
  pure a := fun r => Outcome.ok a r
  bind := Op.bind

/-- Return an error. -/
def Op.fail {α : Type} (e : Err) : Op α := fun r => Outcome.fail e r

/-- Run an operation and hand its error back as a value (`x, err = f()` with `err`
inspected or dropped by the caller). -/
def Op.attempt {α : Type} (x : Op α) : Op (Except Err α) := fun r =>
  match x r with
  | Outcome.ok a r1 => Outcome.ok (Except.ok a) r1
  | Outcome.fail e r1 => Outcome.ok (Except.error e) r1
  | Outcome.diverge => Outcome.diverge

/-- Go `errors.Wrap` around the error of an operation. -/
def Op.wrap {α : Type} (x : Op α) (msg : String) : Op α := fun r =>
  match x r with
  | Outcome.ok a r1 => Outcome.ok a r1
  | Outcome.fail e r1 => Outcome.fail (Err.wrap e msg) r1
  | Outcome.diverge => Outcome.diverge

/-- Modelled from the spec: the `Walk` helper of the set types of package `types`, which is
not among the source files: apply `f` to each element in order and stop at the first
error. -/
def walk {α : Type} (f : α → Op Unit) : List α → Op Unit
  | [] => pure ()
  | a :: rest => Op.bind (f a) (fun _ => walk f rest)

/-! ## The service handle -/

/-- The service (`message` struct of the source) bound to a request context: the acting
user (`repository.Identity(svc.ctx)`), the failure table of its collaborators (a call
listed here fails with the given error and has no effect), and what the service uses from
packages that are not among the source files, taken as parameters: the reserved flag kinds
`types.MessageFlagPinnedToChannel` and `types.MessageFlagBookmarkedMessage`, the method
`IsRepliable` of the message type, `payload.ParseUInt64`, the bit width of the `Replies`
field (`original.Replies++` wraps at it) and the time `timeNowPtr()` returns. -/
structure message where
  currentUserID : Nat := 0
  fault : Call → Option Err := fun _ => none
  MessageFlagPinnedToChannel : String := "pin"
  MessageFlagBookmarkedMessage : String := "bookmark"
  IsRepliable : MessageType → Bool := fun _ => true
  ParseUInt64 : String → Nat := fun _ => 0
  repliesBits : Nat := 64
  timeNow : Nat := 0

/-- Issue call `c`: it is logged; it fails if the failure table says so, otherwise
`eff` computes the answer and the new state. -/
def message.call {α : Type} (svc : message) (c : Call)
    (eff : Repo → Except Err (α × Repo)) : Op α := fun r =>
  let r1 : Repo := { r with log := r.log ++ [c] }
  match svc.fault c with
  | some e => Outcome.fail e r1
  | none =>
    match eff r1 with
    | Except.ok (a, r2) => Outcome.ok a r2
    | Except.error e => Outcome.fail e r1

/-- Modelled from the spec: `svc.db.Transaction(fn)`, the atomic-transaction wrapper of
the persistence gateway ("commits iff fn returns no error and rolls back otherwise").
On rollback the stores return to their state at the start; the record of calls is kept. -/
def Transaction {α : Type} (fn : Op α) : Op α := fun r =>
  match fn { r with log := r.log ++ [Call.txBegin] } with
  | Outcome.ok a r1 => Outcome.ok a { r1 with log := r1.log ++ [Call.txCommit] }
  | Outcome.fail e r1 =>
    Outcome.fail e { r1 with messages := r.messages, mflags := r.mflags,
                             mentions := r.mentions, log := r1.log ++ [Call.txRollback] }
  | Outcome.diverge => Outcome.diverge

/-! ## Message repository (`svc.message`) -/

/-- Modelled from the spec: helper `FindByID` of `types.MessageSet` (package `types` is not
among the source files): the first message with the id, or nil. -/
def MessageSet.FindByID (mm : List Message) (id : Nat) : Option Message :=
  mm.find? (fun m => m.ID == id)

/-- Modelled from the spec: helper `IDs` of `types.MessageSet`: the ids of the set. -/
def MessageSet.IDs (mm : List Message) : List Nat := mm.map (fun m => m.ID)

/-- Modelled from the spec: `svc.message.FindMessageByID` of the message repository
(`findByID(id) -> entity|error`). -/
def message.FindMessageByID (svc : message) (id : Nat) : Op Message :=
  svc.call (Call.FindMessageByID id) (fun r =>
    match MessageSet.FindByID r.messages id with
    | some m => Except.ok (m, r)
    | none => Except.error Err.ErrMessageNotFound)

/-- Modelled from the spec: `svc.message.CreateMessage` of the message repository
(`create(entity) -> entity|error`): the entity gets a fresh id and is stored. -/
def message.CreateMessage (svc : message) (m : Message) : Op Message :=
  svc.call (Call.CreateMessage m) (fun r =>
    let m1 : Message := { m with ID := r.nextID }
    Except.ok (m1, { r with messages := r.messages ++ [m1], nextID := r.nextID + 1 }))

/-- Modelled from the spec: `svc.message.UpdateMessage` of the message repository
(`update(entity) -> entity|error`): the stored row with the entity's id is replaced. -/
def message.UpdateMessage (svc : message) (m : Message) : Op Message :=
  svc.call (Call.UpdateMessage m) (fun r =>
    Except.ok (m, { r with messages := r.messages.map (fun x => if x.ID = m.ID then m else x) }))

/-- Modelled from the spec: `svc.message.DeleteMessageByID` of the message repository
(`delete(id) -> error`; "the row itself is physically removed"). -/
def message.DeleteMessageByID (svc : message) (id : Nat) : Op Unit :=
  svc.call (Call.DeleteMessageByID id) (fun r =>
    Except.ok ((), { r with messages := r.messages.filter (fun x => x.ID != id) }))

/-- Modelled from the spec: row update behind `IncReplyCount`: one more reply on the rows
with the id. -/
def bumpReplies (id : Nat) (x : Message) : Message :=
  if x.ID = id then { x with Replies := x.Replies + 1 } else x

/-- Modelled from the spec: row update behind `DecReplyCount`: one reply less on the rows
with the id, not below zero ("floor at zero"). -/
def dropReplies (id : Nat) (x : Message) : Message :=
  if x.ID = id then { x with Replies := x.Replies - 1 } else x

/-- Modelled from the spec: `svc.message.IncReplyCount` of the message repository (counter
increment on the stored row). -/
def message.IncReplyCount (svc : message) (id : Nat) : Op Unit :=
  svc.call (Call.IncReplyCount id) (fun r =>
    Except.ok ((), { r with messages := r.messages.map (bumpReplies id) }))

/-- Modelled from the spec: `svc.message.DecReplyCount` of the message repository (counter
decrement on the stored row, "floor at zero"). -/
def message.DecReplyCount (svc : message) (id : Nat) : Op Unit :=
  svc.call (Call.DecReplyCount id) (fun r =>
    Except.ok ((), { r with messages := r.messages.map (dropReplies id) }))

/-- Modelled from the spec: `svc.message.PrefillThreadParticipants` of the message
repository ("thread-participant summaries"); the summary fields are not part of the
`Message` record here, so a successful call leaves the set as it is. -/
def message.PrefillThreadParticipants (svc : message) (mm : List Message) : Op (List Message) :=
  svc.call (Call.PrefillThreadParticipants (MessageSet.IDs mm)) (fun r => Except.ok (mm, r))

/-! ## Unread counters (`svc.unreads`) -/

/-- Modelled from the spec: `svc.unreads.Inc` ("delegated to the unread collaborator");
the counters themselves are not part of the state here, the call is recorded. -/
def message.unreadsInc (svc : message) (channelID threadID userID : Nat) : Op Unit :=
  svc.call (Call.unreadsInc channelID threadID userID) (fun r => Except.ok ((), r))

/-- Modelled from the spec: `svc.unreads.Dec`; the call is recorded. -/
def message.unreadsDec (svc : message) (channelID threadID userID : Nat) : Op Unit :=
  svc.call (Call.unreadsDec channelID threadID userID) (fun r => Except.ok ((), r))

/-! ## Mention repository (`svc.mentions`) and `types.MentionSet` helpers -/

/-- Modelled from the spec: helper `FindByUserID` of `types.MentionSet`: the mentions of
the given mentioned user. -/
def MentionSet.FindByUserID (mm : List Mention) (uid : Nat) : List Mention :=
  mm.filter (fun m => m.UserID == uid)

/-- Modelled from the spec: helper `FindByMessageID` of `types.MentionSet`: the mentions of
the given message. -/
def MentionSet.FindByMessageID (mm : List Mention) (id : Nat) : List Mention :=
  mm.filter (fun m => m.MessageID == id)

/-- Modelled from the spec: mention identity, "(message id, mentioned user id)". -/
def Mention.same (a b : Mention) : Bool := a.MessageID == b.MessageID && a.UserID == b.UserID

/-- Modelled from the spec: `Diff` of `types.MentionSet` ("diff existing vs. new by mention
identity"): the additions (in the new set only), the unchanged ones (in both) and the
removals (in the old set only). -/
def MentionSet.Diff (existing new : List Mention) : List Mention × List Mention × List Mention :=
  (new.filter (fun m => !existing.any (fun e => Mention.same e m)),
   existing.filter (fun e => new.any (fun m => Mention.same e m)),
   existing.filter (fun e => !new.any (fun m => Mention.same e m)))

/-- Modelled from the spec: `svc.mentions.FindByMessageIDs` of the mention repository. -/
def message.mentionsFindByMessageIDs (svc : message) (ids : List Nat) : Op (List Mention) :=
  svc.call (Call.mentionsFindByMessageIDs ids) (fun r =>
    Except.ok (r.mentions.filter (fun m => ids.contains m.MessageID), r))

/-- Modelled from the spec: `svc.mentions.Create` of the mention repository. -/
def message.mentionsCreate (svc : message) (m : Mention) : Op Mention :=
  svc.call (Call.mentionsCreate m) (fun r =>
    let m1 : Mention := { m with ID := r.nextID }
    Except.ok (m1, { r with mentions := r.mentions ++ [m1], nextID := r.nextID + 1 }))

/-- Modelled from the spec: `svc.mentions.DeleteByID` of the mention repository. -/
def message.mentionsDeleteByID (svc : message) (id : Nat) : Op Unit :=
  svc.call (Call.mentionsDeleteByID id) (fun r =>
    Except.ok ((), { r with mentions := r.mentions.filter (fun m => m.ID != id) }))

/-- Modelled from the spec: `svc.mentions.DeleteByMessageID` of the mention repository. -/
def message.mentionsDeleteByMessageID (svc : message) (id : Nat) : Op Unit :=
  svc.call (Call.mentionsDeleteByMessageID id) (fun r =>
    Except.ok ((), { r with mentions := r.mentions.filter (fun m => m.MessageID != id) }))

/-! ## Flag repository (`svc.mflag`) -/

/-- Modelled from the spec: the lookup identity of a flag, "(message id, owner id, kind)". -/
def flagKey (messageID ownerID : Nat) (flag : String) (f : MessageFlag) : Bool :=
  f.MessageID == messageID && f.UserID == ownerID && f.Flag == flag

/-- Modelled from the spec: `svc.mflag.FindByFlag` of the flag repository ("looks up an
existing flag by (message id, owner id, kind)").  The service reads `f.ID` before it looks
at the error, so the call always hands back a record: the zero record together with
`ErrMessageFlagNotFound` when nothing matches, or with the failure when the lookup fails. -/
def message.mflagFindByFlag (svc : message) (messageID ownerID : Nat) (flag : String) :
    Op (MessageFlag × Option Err) := fun r =>
  let r1 : Repo := { r with log := r.log ++ [Call.mflagFindByFlag messageID ownerID flag] }
  match svc.fault (Call.mflagFindByFlag messageID ownerID flag) with
  | some e => Outcome.ok ({}, some e) r1
  | none =>
    match r.mflags.find? (flagKey messageID ownerID flag) with
    | some f => Outcome.ok (f, none) r1
    | none => Outcome.ok ({}, some Err.ErrMessageFlagNotFound) r1

/-- Modelled from the spec: `svc.mflag.FindByMessageIDs` of the flag repository. -/
def message.mflagFindByMessageIDs (svc : message) (ids : List Nat) : Op (List MessageFlag) :=
  svc.call (Call.mflagFindByMessageIDs ids) (fun r =>
    Except.ok (r.mflags.filter (fun f => ids.contains f.MessageID), r))

/-- Modelled from the spec: `svc.mflag.Create` of the flag repository: the record gets a
fresh id and is stored. -/
def message.mflagCreate (svc : message) (f : MessageFlag) : Op MessageFlag :=
  svc.call (Call.mflagCreate f) (fun r =>
    let f1 : MessageFlag := { f with ID := r.nextID }
    Except.ok (f1, { r with mflags := r.mflags ++ [f1], nextID := r.nextID + 1 }))

/-- Modelled from the spec: `svc.mflag.DeleteByID` of the flag repository. -/
def message.mflagDeleteByID (svc : message) (id : Nat) : Op Unit :=
  svc.call (Call.mflagDeleteByID id) (fun r =>
    Except.ok ((), { r with mflags := r.mflags.filter (fun f => f.ID != id) }))

/-! ## Attachments, user directory, event service -/

/-- Modelled from the spec: `svc.attachment.FindAttachmentByMessageID`. -/
def message.FindAttachmentByMessageID (svc : message) (ids : List Nat) :
    Op (List MessageAttachment) :=
  svc.call (Call.FindAttachmentByMessageID ids) (fun r =>
    Except.ok (r.attachments.filter (fun a => ids.contains a.MessageID), r))

/-- Modelled from the spec: helper `FindByID` of `systemTypes.UserSet`: the first user with
the id, or nil. -/
def UserSet.FindByID (uu : List User) (id : Nat) : Option User :=
  uu.find? (fun u => u.ID == id)

/-- Modelled from the spec: `svc.usr.FindByID` of the user directory
(`findByID(id) -> user|notFoundError`). -/
def message.usrFindByID (svc : message) (id : Nat) : Op User :=
  svc.call (Call.usrFindByID id) (fun r =>
    match UserSet.FindByID r.users id with
    | some u => Except.ok (u, r)
    | none => Except.error Err.ErrUserNotFound)

/-- Modelled from the spec: `svc.evl.Message` of the event service
(`emitMessage(msg) -> error`); the hand-over is the recorded call. -/
def message.evlMessage (svc : message) (m : Message) : Op Unit :=
  svc.call (Call.evlMessage m) (fun r => Except.ok ((), r))

/-- Modelled from the spec: `svc.evl.MessageFlag` of the event service
(`emitFlag(flag) -> error`). -/
def message.evlMessageFlag (svc : message) (f : MessageFlag) : Op Unit :=
  svc.call (Call.evlMessageFlag f) (fun r => Except.ok ((), r))

/-! ## Strings: `strings.TrimSpace` and the mention pattern -/

/-- Go `unicode.IsSpace`: the Latin-1 spaces and the code points with the White_Space
property. -/
def isSpace (c : Char) : Bool :=
  let n := c.toNat
  (9 ≤ n && n ≤ 13) || n == 32 || n == 133 || n == 160 || n == 5760 ||
  (8192 ≤ n && n ≤ 8202) || n == 8232 || n == 8233 || n == 8239 || n == 8287 || n == 12288

/-- Go `strings.TrimSpace`: drop leading and trailing white space. -/
def TrimSpace (s : String) : String :=
  String.mk ((s.data.dropWhile isSpace).reverse.dropWhile isSpace).reverse

/-- Constant `settingsMessageBodyLength` of the source (0 = no limit). -/
def settingsMessageBodyLength : Nat := 0

/-- Class `\d` of the pattern (ASCII digits). -/
def reDigit (c : Char) : Bool := 48 ≤ c.toNat && c.toNat ≤ 57

/-- Class `\s` of the pattern (tab, newline, form feed, carriage return, blank). -/
def reSpace (c : Char) : Bool :=
  c.toNat == 9 || c.toNat == 10 || c.toNat == 12 || c.toNat == 13 || c.toNat == 32

/-- Class `[^>]` of the pattern. -/
def reNotClose (c : Char) : Bool := c.toNat != 62

/-- One match of `mentionRE`, i.e. of `<([@#])(\d+)((?:\s)([^>]+))?>`, anchored at the
head of the input: the submatches (whole match, sigil, digits, tail, label) and the number
of characters matched.  The digits and the label are greedy, and no shorter choice can
match: after them the pattern needs a character outside their class. -/
def mentionMatchAt (cs : List Char) : Option (List String × Nat) :=
  match cs with
  | open_ :: sigil :: rest =>
    if open_.toNat == 60 && (sigil.toNat == 64 || sigil.toNat == 35) then
      let digits := rest.takeWhile reDigit
      if digits.isEmpty then none
      else
        match rest.dropWhile reDigit with
        | [] => none
        | c :: rest1 =>
          if c.toNat == 62 then
            some ([String.mk (open_ :: sigil :: digits ++ [c]), String.mk [sigil],
                   String.mk digits, "", ""], digits.length + 3)
          else if reSpace c then
            let label := rest1.takeWhile reNotClose
            if label.isEmpty then none
            else
              match rest1.dropWhile reNotClose with
              | [] => none
              | close :: _ =>
                some ([String.mk (open_ :: sigil :: digits ++ c :: label ++ [close]),
                       String.mk [sigil], String.mk digits, String.mk (c :: label),
                       String.mk label], digits.length + label.length + 4)
          else none
    else none
  | _ => none

/-- Successive non-overlapping matches, leftmost first; `skip` counts the characters of
the previous match still to be passed over. -/
def findAllFrom : Nat → List Char → List (List String)
  | _, [] => []
  | skip + 1, _ :: cs => findAllFrom skip cs
  | 0, c :: cs =>
    match mentionMatchAt (c :: cs) with
    | some (groups, len) => groups :: findAllFrom (len - 1) cs
    | none => findAllFrom 0 cs

/-- The call `mentionsFinder.FindAllStringSubmatch(s, -1)`. -/
def FindAllStringSubmatch (s : String) : List (List String) := findAllFrom 0 s.data

/-! ## Mentions -/

/-- Loop body of `extractMentions`: add a mention for the id of one match unless one with
that user id is already there. -/
def message.extractStep (svc : message) (tpl : Mention) (mm : List Mention)
    (groups : List String) : List Mention :=
  let uid := svc.ParseUInt64 (groups.getD 2 "")
  if (MentionSet.FindByUserID mm uid).length = 0 then mm ++ [{ tpl with UserID := uid }] else mm

/-- Source function `extractMentions`. -/
def message.extractMentions (svc : message) (m : Message) : List Mention :=
  let found := FindAllStringSubmatch m.Message
  let tpl : Mention := { ChannelID := m.ChannelID, MessageID := m.ID, MentionedByID := m.UserID }
  found.foldl (svc.extractStep tpl) []

/-- Source function `updateMentions`. -/
def message.updateMentions (svc : message) (messageID : Nat) (mm : List Mention) : Op Unit :=
  Op.bind (Op.wrap (svc.mentionsFindByMessageIDs [messageID]) "Could not update mentions")
    (fun existing =>
      if mm.length > 0 then
        let d := MentionSet.Diff existing mm
        Op.bind (Op.wrap (walk (fun m => Op.bind (svc.mentionsCreate m) (fun _ => pure ())) d.1)
                  "Could not create mentions") (fun _ =>
          Op.wrap (walk (fun m => svc.mentionsDeleteByID m.ID) d.2.2) "Could not delete mentions")
      else svc.mentionsDeleteByMessageID messageID)

/-! ## Hydration -/

/-- Loop of `preloadUsers`; `uu` is the set of users loaded so far.  The error of the user
directory is dropped, as in the source. -/
def message.preloadUsersLoop (svc : message) : List User → List Message → Op (List Message)
  | _, [] => pure []
  | uu, msg :: rest =>
    if msg.User.isSome || msg.UserID == 0 then
      Op.bind (svc.preloadUsersLoop uu rest) (fun rest1 => pure (msg :: rest1))
    else
      match UserSet.FindByID uu msg.UserID with
      | some u =>
        Op.bind (svc.preloadUsersLoop uu rest) (fun rest1 =>
          pure ({ msg with User := some u } :: rest1))
      | none =>
        Op.bind (Op.attempt (svc.usrFindByID msg.UserID)) (fun res =>
          match res with
          | Except.ok u =>
            Op.bind (svc.preloadUsersLoop (uu ++ [u]) rest) (fun rest1 =>
              pure ({ msg with User := some u } :: rest1))
          | Except.error _ =>
            Op.bind (svc.preloadUsersLoop uu rest) (fun rest1 =>
              pure ({ msg with User := none } :: rest1)))

/-- Source function `preloadUsers`. -/
def message.preloadUsers (svc : message) (mm : List Message) : Op (List Message) :=
  svc.preloadUsersLoop [] mm

/-- Update the first message with the given id (what a write through the pointer
returned by `mm.FindByID(id)` does). -/
def MessageSet.updateFirst (id : Nat) (f : Message → Message) : List Message → List Message
  | [] => []
  | m :: rest => if m.ID == id then f m :: rest else m :: MessageSet.updateFirst id f rest

/-- Callback of the attachment walk in `preloadAttachments`. -/
def attachOne (mm : List Message) (a : MessageAttachment) : List Message :=
  if a.MessageID > 0 then
    MessageSet.updateFirst a.MessageID (fun m => { m with Attachment := some a.Attachment }) mm
  else mm

/-- The id list built by the first walk of `preloadAttachments`: the messages of type
attachment or inline image. -/
def attachmentIDs (mm : List Message) : List Nat :=
  (mm.filter (fun m =>
    m.Type_ == MessageType.attachment || m.Type_ == MessageType.inlineImage)).map (fun m => m.ID)

/-- Source function `preloadAttachments`. -/
def message.preloadAttachments (svc : message) (mm : List Message) : Op (List Message) :=
  Op.bind (svc.FindAttachmentByMessageID (attachmentIDs mm)) (fun aa =>
    pure (aa.foldl attachOne mm))

/-- Callback of the flag walk in `preloadFlags`: the flag is appended to the message
`mm.FindByID(flag.MessageID)`; with no such message the source dereferences nil. -/
def flagOne (mm : List Message) (f : MessageFlag) : Except Err (List Message) :=
  match MessageSet.FindByID mm f.MessageID with
  | none => Except.error Err.nilDereference
  | some _ =>
    Except.ok (MessageSet.updateFirst f.MessageID (fun m => { m with Flags := m.Flags ++ [f] }) mm)

/-- The flag walk of `preloadFlags`. -/
def flagAll : List MessageFlag → List Message → Except Err (List Message)
  | [], mm => Except.ok mm
  | f :: rest, mm =>
    match flagOne mm f with
    | Except.ok mm1 => flagAll rest mm1
    | Except.error e => Except.error e

/-- Source function `preloadFlags`. -/
def message.preloadFlags (svc : message) (mm : List Message) : Op (List Message) :=
  Op.bind (svc.mflagFindByMessageIDs (MessageSet.IDs mm)) (fun ff =>
    match flagAll ff mm with
    | Except.ok mm1 => pure mm1
    | Except.error e => Op.fail e)

/-- Source function `preloadMentions`. -/
def message.preloadMentions (svc : message) (mm : List Message) : Op (List Message) :=
  Op.bind (svc.mentionsFindByMessageIDs (MessageSet.IDs mm)) (fun mentions =>
    pure (mm.map (fun m => { m with Mentions := MentionSet.FindByMessageID mentions m.ID })))

/-- Source function `preload`: users, attachments, flags, mentions, thread participants;
the first error ends it. -/
def message.preload (svc : message) (mm : List Message) : Op (List Message) :=
  Op.bind (svc.preloadUsers mm) (fun mm1 =>
  Op.bind (svc.preloadAttachments mm1) (fun mm2 =>
  Op.bind (svc.preloadFlags mm2) (fun mm3 =>
  Op.bind (svc.preloadMentions mm3) (fun mm4 =>
  svc.PrefillThreadParticipants mm4))))

/-! ## Events -/

/-- Loop of `sendEvent`: load the author if still missing (error dropped), then hand the
message to the event service; the first emission error ends the loop. -/
def message.sendEventLoop (svc : message) : List Message → Op (List Message)
  | [] => pure []
  | msg :: rest =>
    Op.bind
      (if msg.User.isNone then
        Op.bind (Op.attempt (svc.usrFindByID msg.UserID)) (fun res =>
          match res with
          | Except.ok u => pure { msg with User := some u }
          | Except.error _ => pure { msg with User := none })
      else pure msg) (fun msg1 =>
    Op.bind (svc.evlMessage msg1) (fun _ =>
    Op.bind (svc.sendEventLoop rest) (fun rest1 => pure (msg1 :: rest1))))

/-- Source function `sendEvent`; the result is the hydrated set. -/
def message.sendEvent (svc : message) (mm : List Message) : Op (List Message) :=
  Op.bind (svc.preload mm) (fun mm1 => svc.sendEventLoop mm1)

/-- Source function `sendFlagEvent`. -/
def message.sendFlagEvent (svc : message) (ff : List MessageFlag) : Op Unit :=
  walk (fun f => svc.evlMessageFlag f) ff

/-! ## Create -/

/-- The loop `for replyTo > 0` of `Create`.  Each round loads the message with id
`in.ReplyTo` (the argument `inReplyTo`, which the loop never changes) and continues with
that message's reply-to.  `fuel` bounds the number of rounds; running out of it stands
for a loop that does not end. -/
def message.replyLoop (svc : message) (inReplyTo : Nat) :
    Nat → Nat → Option Message → Op (Option Message)
  | 0, replyTo, original, r =>
    if replyTo > 0 then Outcome.diverge else Outcome.ok original r
  | fuel + 1, replyTo, original, r =>
    if replyTo > 0 then
      match svc.FindMessageByID inReplyTo r with
      | Outcome.ok m r1 => svc.replyLoop inReplyTo fuel m.ReplyTo (some m) r1
      | Outcome.fail e r1 => Outcome.fail e r1
      | Outcome.diverge => Outcome.diverge
    else Outcome.ok original r

/-- The block `if in.ReplyTo > 0` of `Create`: the rewritten input and the broadcast
queue.  The text of the `Errorf` error leaves out the formatted type. -/
def message.createReply (svc : message) (fuel : Nat) (inp : Message) :
    Op (Message × List Message) :=
  if inp.ReplyTo > 0 then
    Op.bind (svc.replyLoop inp.ReplyTo fuel inp.ReplyTo none) (fun found =>
      match found with
      | none => Op.fail Err.nilDereference
      | some original =>
        if !svc.IsRepliable original.Type_ then
          Op.fail (Err.new "Unable to reply on this message")
        else
          let inp1 : Message :=
            { inp with ReplyTo := original.ID, ChannelID := original.ChannelID }
          let original1 : Message :=
            { original with Replies := (original.Replies + 1) % 2 ^ svc.repliesBits }
          Op.bind (svc.IncReplyCount original1.ID) (fun _ => pure (inp1, [original1])))
  else pure (inp, [])

/-- The closure `Create` hands to `svc.db.Transaction`; its value is the variable
`message` of the source. -/
def message.createTx (svc : message) (fuel : Nat) (inp : Message) : Op Message :=
  Op.bind (svc.createReply fuel inp) (fun p =>
    if p.1.ChannelID == 0 then Op.fail (Err.new "ChannelID missing")
    else
      Op.bind (svc.CreateMessage p.1) (fun msg =>
      Op.bind (svc.updateMentions msg.ID (svc.extractMentions msg)) (fun _ =>
      Op.bind (svc.unreadsInc msg.ChannelID msg.ReplyTo msg.UserID) (fun _ =>
      Op.bind (svc.sendEvent (p.2 ++ [msg])) (fun sent => pure (sent.getLastD msg))))))

/-- Body validation at the head of `Create` and of `Update`: the trimmed input, or the
error (`what` is "create" or "update"; the text of the length error leaves out the
formatted numbers, and with the limit at 0 that branch is never taken). -/
def validateBody (inp : Option Message) (what : String) : Except Err Message :=
  let in0 : Message := inp.getD {}
  let in1 : Message := { in0 with Message := TrimSpace in0.Message }
  let mlen := in1.Message.utf8ByteSize
  if mlen == 0 then
    Except.error (Err.new ("Refusing to " ++ what ++ " message without contents"))
  else if settingsMessageBodyLength > 0 && mlen > settingsMessageBodyLength then
    Except.error (Err.new "Message length too long")
  else Except.ok in1

/-- Source function `Create`.  A nil input is `none`.  The result stands for the pair
`(message, err)` of the source: on success the variable `message` as the closure left it
(the created message, hydrated by `sendEvent`), on failure the error. -/
def message.Create (svc : message) (fuel : Nat) (inp : Option Message) : Op Message :=
  match validateBody inp "create" with
  | Except.error e => Op.fail e
  | Except.ok in1 =>
    Transaction (svc.createTx fuel { in1 with UserID := svc.currentUserID })

/-! ## Update -/

/-- The closure `Update` hands to `svc.db.Transaction`. -/
def message.updateTx (svc : message) (inp : Message) : Op Message :=
  Op.bind (Op.wrap (svc.FindMessageByID inp.ID) "Could not load message for editing")
    (fun msg =>
      if msg.Message == inp.Message then pure msg
      else if msg.UserID != svc.currentUserID then Op.fail (Err.new "Not an owner")
      else
        Op.bind (svc.UpdateMessage { msg with Message := inp.Message }) (fun msg1 =>
        Op.bind (svc.updateMentions msg1.ID (svc.extractMentions msg1)) (fun _ =>
        Op.bind (svc.sendEvent [msg1]) (fun sent => pure (sent.getLastD msg1)))))

/-- Source function `Update`. -/
def message.Update (svc : message) (inp : Option Message) : Op Message :=
  match validateBody inp "update" with
  | Except.error e => Op.fail e
  | Except.ok in1 => Transaction (svc.updateTx in1)

/-! ## Delete -/

/-- The block `if deletedMsg.ReplyTo > 0` of `Delete`: the broadcast queue. -/
def message.deleteReply (svc : message) (deletedMsg : Message) : Op (List Message) :=
  if deletedMsg.ReplyTo > 0 then
    Op.bind (svc.FindMessageByID deletedMsg.ReplyTo) (fun original =>
      let original1 : Message :=
        if original.Replies > 0 then { original with Replies := original.Replies - 1 }
        else original
      Op.bind (svc.DecReplyCount original1.ID) (fun _ => pure [original1]))
  else pure []

/-- The closure `Delete` hands to `svc.db.Transaction`. -/
def message.deleteTx (svc : message) (ID : Nat) : Op Unit :=
  Op.bind (svc.FindMessageByID ID) (fun deletedMsg =>
  Op.bind (svc.deleteReply deletedMsg) (fun bq =>
  Op.bind (svc.DeleteMessageByID ID) (fun _ =>
  Op.bind (svc.unreadsDec deletedMsg.ChannelID deletedMsg.ReplyTo deletedMsg.UserID) (fun _ =>
  Op.bind (svc.updateMentions ID []) (fun _ =>
  Op.bind (svc.sendEvent (bq ++ [{ deletedMsg with DeletedAt := some svc.timeNow }]))
    (fun _ => pure ()))))))

/-- Source function `Delete`. -/
def message.Delete (svc : message) (ID : Nat) : Op Unit :=
  Transaction (svc.deleteTx ID)

/-! ## Flags -/

/-- The variable `flagOwnerId` of `flag`: 0 for the pin kind, else the acting user. -/
def message.flagOwnerId (svc : message) (flag : String) : Nat :=
  if flag == svc.MessageFlagPinnedToChannel then 0 else svc.currentUserID

/-- The record `flag` hands to `svc.mflag.Create`: its owner is the acting user. -/
def message.newFlag (svc : message) (msg : Message) (flag : String) : MessageFlag :=
  { UserID := svc.currentUserID, ChannelID := msg.ChannelID, MessageID := msg.ID, Flag := flag }

/-- The closure `flag` hands to `svc.db.Transaction`. -/
def message.flagTx (svc : message) (messageID : Nat) (flag : String) (remove : Bool) : Op Unit :=
  Op.bind (svc.mflagFindByFlag messageID (svc.flagOwnerId flag) flag) (fun found =>
    let f := found.1
    let err := found.2
    if f.ID == 0 && remove then pure ()
    else if f.ID > 0 && !remove then pure ()
    else if err.isSome && err != some Err.ErrMessageFlagNotFound then
      Op.fail (err.getD Err.nilDereference)
    else
      Op.bind (svc.FindMessageByID messageID) (fun msg =>
        if remove then
          Op.bind (svc.mflagDeleteByID f.ID) (fun _ =>
          Op.bind (Op.attempt (svc.sendFlagEvent [{ f with DeletedAt := some svc.timeNow }]))
            (fun _ => pure ()))
        else
          Op.bind (svc.mflagCreate (svc.newFlag msg flag)) (fun f1 =>
          Op.bind (Op.attempt (svc.sendFlagEvent [f1])) (fun _ => pure ()))))

/-- Source function `flag`: an empty or blank kind becomes the pin kind; the error of the
transaction is wrapped. -/
def message.flag (svc : message) (messageID : Nat) (flag : String) (remove : Bool) : Op Unit :=
  let flag1 : String :=
    if TrimSpace flag == "" then svc.MessageFlagPinnedToChannel else flag
  Op.wrap (Transaction (svc.flagTx messageID flag1 remove)) "Can not flag/un-flag message"

/-- Source function `React`. -/
def message.React (svc : message) (messageID : Nat) (reaction : String) : Op Unit :=
  svc.flag messageID reaction false

/-- Source function `RemoveReaction`. -/
def message.RemoveReaction (svc : message) (messageID : Nat) (reaction : String) : Op Unit :=
  svc.flag messageID reaction true

/-- Source function `Pin`. -/
def message.Pin (svc : message) (messageID : Nat) : Op Unit :=
  svc.flag messageID svc.MessageFlagPinnedToChannel false

/-- Source function `RemovePin`. -/
def message.RemovePin (svc : message) (messageID : Nat) : Op Unit :=
  svc.flag messageID svc.MessageFlagPinnedToChannel true

/-- Source function `Bookmark`. -/
def message.Bookmark (svc : message) (messageID : Nat) : Op Unit :=
  svc.flag messageID svc.MessageFlagBookmarkedMessage false

/-- Source function `RemoveBookmark`. -/
def message.RemoveBookmark (svc : message) (messageID : Nat) : Op Unit :=
  svc.flag messageID svc.MessageFlagBookmarkedMessage true

/-! ## Sample data -/

/-- A service handle for user 1 with working collaborators and decimal id parsing. -/
def svc1 : message :=
  { currentUserID := 1,
    ParseUInt64 := fun s => s.data.foldl (fun n c => 10 * n + (c.toNat - 48)) 0 }

/-- The same service for user 2. -/
def svc2 : message := { svc1 with currentUserID := 2 }

/-- Top-level message 100 in channel 7, written by user 1. -/
def m100 : Message := { ID := 100, ChannelID := 7, UserID := 1, Message := "hello" }

/-- Message 101, a reply to message 100. -/
def m101 : Message := { ID := 101, ChannelID := 7, ReplyTo := 100, UserID := 2, Message := "re" }

/-- Message 300: an attachment message stored with an empty body. -/
def m300 : Message := { ID := 300, ChannelID := 7, UserID := 1, Type_ := MessageType.attachment }

/-- A store holding message 300. -/
def repo300 : Repo := { messages := [m300], nextID := 400 }

/-- The service for user 1 with an event service that refuses the event of message 200. -/
def svcRefuse : message :=
  { svc1 with fault := fun c =>
      match c with
      | Call.evlMessage m => if m.ID == 200 then some (Err.persistence 1) else none
      | _ => none }

/-- The service for user 1 with a flag repository whose lookup fails with a persistence
error (code 7). -/
def svcLookupDown : message :=
  { svc1 with fault := fun c =>
      match c with
      | Call.mflagFindByFlag _ _ _ => some (Err.persistence 7)
      | _ => none }

/-- The flag "like" of user 1 on message 100, stored under id 150. -/
def likeFlag : MessageFlag := { ID := 150, UserID := 1, ChannelID := 7, MessageID := 100, Flag := "like" }

/-- The pin of message 100 (owner 0), stored under id 151. -/
def pinFlag : MessageFlag := { ID := 151, UserID := 0, ChannelID := 7, MessageID := 100, Flag := "pin" }

/-- The bookmark of user 1 on message 100, stored under id 152. -/
def bookmarkFlag : MessageFlag :=
  { ID := 152, UserID := 1, ChannelID := 7, MessageID := 100, Flag := "bookmark" }

/-- Stored mention A: user 11 mentioned in message 100. -/
def mentionA : Mention := { ID := 501, ChannelID := 7, MessageID := 100, UserID := 11, MentionedByID := 1 }

/-- Stored mention B: user 12 mentioned in message 100. -/
def mentionB : Mention := { ID := 502, ChannelID := 7, MessageID := 100, UserID := 12, MentionedByID := 1 }

/-- Stored mention of another message (101). -/
def mentionZ : Mention := { ID := 503, ChannelID := 7, MessageID := 101, UserID := 11, MentionedByID := 2 }

/-- Newly extracted mention B: user 12 in message 100, not yet stored. -/
def newB : Mention := { ChannelID := 7, MessageID := 100, UserID := 12, MentionedByID := 1 }

/-- Newly extracted mention C: user 13 in message 100, not yet stored. -/
def newC : Mention := { ChannelID := 7, MessageID := 100, UserID := 13, MentionedByID := 1 }

/-- A store holding message 100 and its reply 101. -/
def repo0 : Repo := { messages := [m100, m101], users := [{ ID := 1 }, { ID := 2 }], nextID := 200 }

/-- The store `repo0` with the three flags on message 100. -/
def repoFlagged : Repo := { repo0 with mflags := [likeFlag, pinFlag, bookmarkFlag] }

/-- The store `repo0` with the mentions A and B of message 100 and one of message 101. -/
def repoAB : Repo := { repo0 with mentions := [mentionA, mentionZ, mentionB], nextID := 600 }

/-! ## Vocabulary of the statements -/

/-- The state `r` with the calls `l` added to its record. -/
def Repo.logged (r : Repo) (l : List Call) : Repo := { r with log := r.log ++ l }

/-- The stored part of a message: the record without its transient hydrated fields. -/
def Message.core (m : Crust.Message) : Crust.Message :=
  { m with User := none, Flags := [], Mentions := [], Attachment := none }

/-- Calls that neither write to a store nor hand over an event. -/
def Quiet (l : List Call) : Prop := ∀ c ∈ l, c.isWrite = false ∧ c.isEmit = false

/-- Calls that do not write to a store. -/
def NoWrite (l : List Call) : Prop := ∀ c ∈ l, c.isWrite = false

/-- Calls that do not hand over an event. -/
def NoEmit (l : List Call) : Prop := ∀ c ∈ l, c.isEmit = false

/-- A call to the mention repository. -/
def Call.isMention : Call → Bool
  | Call.mentionsFindByMessageIDs _ => true
  | Call.mentionsCreate _ => true
  | Call.mentionsDeleteByID _ => true
  | Call.mentionsDeleteByMessageID _ => true
  | _ => false

/-- A run from `r` to `r1` that touched nothing but the mention store, the id generator
and the record of calls, where it added calls to the mention repository only. -/
structure MentionStep (r r1 : Repo) : Prop where
  messages : r1.messages = r.messages
  mflags : r1.mflags = r.mflags
  attachments : r1.attachments = r.attachments
  users : r1.users = r.users
  log : ∃ l, r1.log = r.log ++ l ∧ ∀ c ∈ l, c.isMention = true

/-- The operation returns from `r`, and the state it reaches is related to `r` by `R`. -/
def Steps {α : Type} (R : Repo → Repo → Prop) (x : Op α) (r : Repo) : Prop :=
  match x r with
  | Outcome.ok _ r1 => R r r1
  | Outcome.fail _ r1 => R r r1
  | Outcome.diverge => False

/-- The operation succeeds from `r`. -/
def Succeeds {α : Type} (x : Op α) (r : Repo) : Prop := ∃ a r1, x r = Outcome.ok a r1

/-- In the calls `l` no store write comes after an emission. -/
def emitsAfterWrites : List Call → Bool
  | [] => true
  | c :: cs => (!c.isEmit || cs.all (fun d => !d.isWrite)) && emitsAfterWrites cs

/-- Every run of `x` that returns adds calls without an emission. -/
def LogsNoEmit {α : Type} (x : Op α) : Prop :=
  ∀ r, (∀ a r1, x r = Outcome.ok a r1 → ∃ l, r1.log = r.log ++ l ∧ NoEmit l) ∧
       (∀ e r1, x r = Outcome.fail e r1 → ∃ l, r1.log = r.log ++ l ∧ NoEmit l)

/-- Every run of `x` that returns adds calls `l1 ++ l2`, where `l1` has no emission and
`l2` has no store write; a failed run's `l2` satisfies `T`. -/
def EmitLast {α : Type} (T : Err → List Call → Prop) (x : Op α) : Prop :=
  ∀ r, (∀ a r1, x r = Outcome.ok a r1 →
          ∃ l1 l2, r1.log = r.log ++ (l1 ++ l2) ∧ NoEmit l1 ∧ NoWrite l2) ∧
       (∀ e r1, x r = Outcome.fail e r1 →
          ∃ l1 l2, r1.log = r.log ++ (l1 ++ l2) ∧ NoEmit l1 ∧ NoWrite l2 ∧ T e l2)

/-- The calls `l` of a failed `sendEvent`: no emission at all, or the last call is an
emission that the event service refused with the error returned. -/
def message.emissionFailed (svc : message) (e : Err) (l : List Call) : Prop :=
  NoEmit l ∨ ∃ pre m, l = pre ++ [Call.evlMessage m] ∧ svc.fault (Call.evlMessage m) = some e

/-- Events are handed over inside the transaction, after the writes: in every run of `x`
that returns, no store write follows an emission; a successful run ends with the commit;
a failed run either emitted nothing or ends with a refused emission and the rollback. -/
def message.EmitsInsideTx {α : Type} (svc : message) (x : Op α) : Prop :=
  ∀ r, (∀ a r1, x r = Outcome.ok a r1 →
          ∃ l, r1.log = r.log ++ l ∧ emitsAfterWrites l = true ∧
            l.getLast? = some Call.txCommit) ∧
       (∀ e r1, x r = Outcome.fail e r1 →
          ∃ l, r1.log = r.log ++ l ∧ emitsAfterWrites l = true ∧
            (NoEmit l ∨ ∃ pre m e0, l = pre ++ [Call.evlMessage m, Call.txRollback] ∧
              svc.fault (Call.evlMessage m) = some e0))

/-- The calls a complete run of mention synchronisation issues for message `messageID`
with persisted mentions `E` and new set `N`: the lookup; then, for a non-empty `N`, one
create per mention of `N` whose identity is not in `E` followed by one delete (by id) per
mention of `E` whose identity is not in `N`; for an empty `N`, the one delete of all
mentions of the message. -/
def mentionCalls (messageID : Nat) (E N : List Mention) : List Call :=
  Call.mentionsFindByMessageIDs [messageID] ::
    (if N.length > 0 then
      (N.filter (fun n => !E.any (fun e => Mention.same e n))).map Call.mentionsCreate ++
      (E.filter (fun e => !N.any (fun n => Mention.same e n))).map
        (fun e => Call.mentionsDeleteByID e.ID)
    else [Call.mentionsDeleteByMessageID messageID])

/-- Every failed run of `x` has handed over no event. -/
def FailsBeforeEmitting {α : Type} (x : Op α) : Prop :=
  ∀ r e r1, x r = Outcome.fail e r1 → ∃ l, r1.log = r.log ++ l ∧ NoEmit l

/-- The message `Create` hands to the repository for a reply under `root`: trimmed body,
acting user as author, reply-to and channel taken from the root. -/
def message.replyInput (svc : message) (inp root : Message) : Message :=
  { inp with Message := TrimSpace inp.Message, UserID := svc.currentUserID,
             ReplyTo := root.ID, ChannelID := root.ChannelID }

/-- One of the four batched lookups of `preload` (attachments, flags, mentions, thread
participants) is set to fail for the message set `mm`. -/
def message.batchedLookupFails (svc : message) (mm : List Message) : Bool :=
  (svc.fault (Call.FindAttachmentByMessageID (attachmentIDs mm))).isSome ||
  (svc.fault (Call.mflagFindByMessageIDs (MessageSet.IDs mm))).isSome ||
  (svc.fault (Call.mentionsFindByMessageIDs (MessageSet.IDs mm))).isSome ||
  (svc.fault (Call.PrefillThreadParticipants (MessageSet.IDs mm))).isSome

/-- The author `preloadUsers` leaves on a message when the user directory answers from
the list `users`: the one already set; none for user id 0 or an unknown user. -/
def hydratedAuthor (users : List User) (m : Message) : Option User :=
  if m.User.isSome || m.UserID == 0 then m.User else UserSet.FindByID users m.UserID

/-! ## Basic facts about operations -/

theorem Op.bind_of_ok {α β : Type} (x : Op α) (f : α → Op β) (r r1 : Repo) (a : α)
    (h : x r = Outcome.ok a r1) : Op.bind x f r = f a r1 := by
  simp [Op.bind, h]

theorem Op.bind_of_fail {α β : Type} (x : Op α) (f : α → Op β) (r r1 : Repo) (e : Err)
    (h : x r = Outcome.fail e r1) : Op.bind x f r = Outcome.fail e r1 := by
  simp [Op.bind, h]

theorem Op.bind_of_diverge {α β : Type} (x : Op α) (f : α → Op β) (r : Repo)
    (h : x r = Outcome.diverge) : Op.bind x f r = Outcome.diverge := by
  simp [Op.bind, h]

theorem FindMessageByID_found (svc : message) (id : Nat) (r : Repo) (m : Message)
    (hf : svc.fault (Call.FindMessageByID id) = none)
    (hm : MessageSet.FindByID r.messages id = some m) :
    svc.FindMessageByID id r
      = Outcome.ok m { r with log := r.log ++ [Call.FindMessageByID id] } := by
  simp [message.FindMessageByID, message.call, hf, hm]

/-! ## C1: the reply-to walk of `Create` -/

/-- When the message named by `in.ReplyTo` is itself a reply, every round of the loop
loads that same message again and the loop runs out of any amount of fuel. -/
theorem replyLoop_diverges (svc : message) (id : Nat) (m : Message)
    (hf : svc.fault (Call.FindMessageByID id) = none) (hm : 0 < m.ReplyTo) :
    ∀ (fuel replyTo : Nat) (original : Option Message) (r : Repo),
      MessageSet.FindByID r.messages id = some m → 0 < replyTo →
      svc.replyLoop id fuel replyTo original r = Outcome.diverge := by
  intro fuel
  induction fuel with
  | zero =>
    intro replyTo original r _ hpos
    simp [message.replyLoop, hpos]
  | succ n ih =>
    intro replyTo original r hfind hpos
    rw [message.replyLoop]
    simp only [gt_iff_lt, hpos, if_true]
    rw [FindMessageByID_found svc id r m hf hfind]
    exact ih m.ReplyTo (some m) _ hfind hm

/-- A reply to a reply: `Create` does not return, whatever the fuel. -/
theorem Create_diverges_of_reply_to_reply (svc : message) (inp m : Message) (r : Repo)
    (hbody : (TrimSpace inp.Message).utf8ByteSize ≠ 0)
    (hf : svc.fault (Call.FindMessageByID inp.ReplyTo) = none)
    (hfind : MessageSet.FindByID r.messages inp.ReplyTo = some m)
    (hin : 0 < inp.ReplyTo) (hm : 0 < m.ReplyTo) (fuel : Nat) :
    svc.Create fuel (some inp) r = Outcome.diverge := by
  have hloop := replyLoop_diverges svc inp.ReplyTo m hf hm fuel inp.ReplyTo none
    { r with log := r.log ++ [Call.txBegin] } hfind hin
  simp [message.Create, validateBody, hbody, settingsMessageBodyLength, Transaction,
    message.createTx, message.createReply, hin, Op.bind, hloop]

/-- C1 (failing input): with message 100 top-level and message 101 a reply to it, `Create`
of a message with `ReplyTo = 101` never completes: for every bound on the number of loop
rounds the run has no result, so nothing is persisted with the root's id and channel. -/
theorem Create_reply_to_reply_no_result :
    ∀ fuel : Nat,
      svc1.Create fuel (some { ReplyTo := 101, ChannelID := 7, Message := "hi" }) repo0
        = Outcome.diverge := by
  intro fuel
  exact Create_diverges_of_reply_to_reply svc1 _ m101 repo0 (by decide) rfl (by decide)
    (by decide) (by decide) fuel

/-! ## C2: two users pin the same message -/

/-- C2 (failing input): user 1 and then user 2 pin message 100.  Both calls succeed, the
second lookup (owner 0) does not find the record of the first pin, and the store ends with
two pin records for the message, owned by users 1 and 2; none has owner 0. -/
theorem Pin_by_two_users_two_records :
    ((Op.bind (svc1.Pin 100) (fun _ => svc2.Pin 100)) repo0).err = none ∧
    ((Op.bind (svc1.Pin 100) (fun _ => svc2.Pin 100)) repo0).repo.map
        (fun r => r.mflags.map (fun f => (f.MessageID, f.UserID, f.Flag)))
      = some [(100, 1, "pin"), (100, 2, "pin")] := by
  decide!

/-! ## C3: channel tokens in `extractMentions` -/

/-- C3 (failing input): for the body `<#5>`, a channel token and nothing else,
`extractMentions` yields one mention, with the channel's number as the mentioned user. -/
theorem extractMentions_channel_token (svc : message) :
    svc.extractMentions { ID := 9, ChannelID := 7, UserID := 1, Message := "<#5>" }
      = [{ ChannelID := 7, MessageID := 9, MentionedByID := 1,
           UserID := svc.ParseUInt64 "5" }] := by
  have h : FindAllStringSubmatch "<#5>" = [["<#5>", "#", "5", "", ""]] := by decide
  simp [message.extractMentions, h, message.extractStep, MentionSet.FindByUserID]

/-! ## Body validation -/

theorem utf8ByteSize_eq_zero (s : String) : s.utf8ByteSize = 0 ↔ s = "" := by
  cases s with
  | mk data =>
    cases data with
    | nil => exact ⟨fun _ => rfl, fun _ => rfl⟩
    | cons c cs =>
      constructor
      · intro h
        have hpos := Char.utf8Size_pos c
        simp [String.utf8ByteSize, String.utf8ByteSize.go] at h
        omega
      · intro h
        have hd := congrArg String.data h
        simp at hd

theorem TrimSpace_of_blank (s : String) (h : ∀ c ∈ s.data, isSpace c = true) :
    TrimSpace s = "" := by
  have h1 : s.data.dropWhile isSpace = [] := by
    rw [List.dropWhile_eq_nil_iff]
    exact h
  simp [TrimSpace, h1]

theorem validateBody_blank (inp : Option Message) (what : String)
    (h : ∀ c ∈ (inp.getD {}).Message.data, isSpace c = true) :
    validateBody inp what
      = Except.error (Err.new ("Refusing to " ++ what ++ " message without contents")) := by
  have h0 : (TrimSpace (inp.getD {}).Message).utf8ByteSize = 0 := by
    rw [TrimSpace_of_blank _ h]
    rfl
  simp [validateBody, h0]

theorem validateBody_ok (inp : Message) (what : String) (h : TrimSpace inp.Message ≠ "") :
    validateBody (some inp) what = Except.ok { inp with Message := TrimSpace inp.Message } := by
  have h0 : (TrimSpace inp.Message).utf8ByteSize ≠ 0 := by
    intro hz
    exact h ((utf8ByteSize_eq_zero _).1 hz)
  simp [validateBody, h0, settingsMessageBodyLength]

/-! ## C7: `Create` with an empty body -/

/-- C7: for a nil input and for an input whose body is empty or white space only, `Create`
returns the validation error and leaves the collaborators' state as it was, the record of
calls included: no transaction is entered, no repository is called, nothing is emitted. -/
theorem Create_blank_body_no_call (svc : message) (fuel : Nat) (inp : Option Message)
    (r : Repo)
    (h : inp = none ∨ ∃ m, inp = some m ∧ ∀ c ∈ m.Message.data, isSpace c = true) :
    svc.Create fuel inp r
      = Outcome.fail (Err.new "Refusing to create message without contents") r := by
  have hb : ∀ c ∈ (inp.getD {}).Message.data, isSpace c = true := by
    rcases h with h | ⟨m, hm, hc⟩
    · subst h
      intro c hc
      cases hc
    · subst hm
      exact hc
  have hv := validateBody_blank inp "create" hb
  have hs : "Refusing to " ++ "create" ++ " message without contents"
      = "Refusing to create message without contents" := by decide
  rw [hs] at hv
  simp [message.Create, hv, Op.fail]

/-- Witness for C7: a body of blanks and a tab. -/
theorem Create_blank_body_no_call_witness :
    svc1.Create 1 (some { ChannelID := 7, Message := "  \t " }) repo0
      = Outcome.fail (Err.new "Refusing to create message without contents") repo0 :=
  Create_blank_body_no_call svc1 1 _ repo0 (Or.inr ⟨_, rfl, by decide⟩)

/-! ## C8, C9: `Update` -/

/-- C8 (counterexample): message 300 is stored with an empty body; an `Update` of it whose
body is blank has a trimmed body equal to the stored one, and fails with the validation
error instead of succeeding. -/
theorem Update_unchanged_empty_body_fails :
    TrimSpace "  " = m300.Message ∧
    MessageSet.FindByID repo300.messages 300 = some m300 ∧
    (svc1.Update (some { ID := 300, Message := "  " }) repo300).err
      = some (Err.new "Refusing to update message without contents") := by
  decide!

/-- C8 (amended): when the trimmed input body is not empty and equals the body of the
stored message that the load returns, `Update` succeeds for every acting user and the only
calls are the transaction's begin, the load and the commit: no store is written and
nothing is emitted. -/
theorem Update_unchanged_body_noop (svc : message) (inp stored : Message) (r : Repo)
    (hne : TrimSpace inp.Message ≠ "")
    (hf : svc.fault (Call.FindMessageByID inp.ID) = none)
    (hfind : MessageSet.FindByID r.messages inp.ID = some stored)
    (heq : stored.Message = TrimSpace inp.Message) :
    svc.Update (some inp) r
      = Outcome.ok stored
          { r with log := r.log ++ [Call.txBegin, Call.FindMessageByID inp.ID, Call.txCommit] } := by
  have hfound := FindMessageByID_found svc inp.ID { r with log := r.log ++ [Call.txBegin] }
    stored hf hfind
  simp [message.Update, validateBody_ok inp "update" hne, Transaction, message.updateTx,
    Op.bind, Op.wrap, hfound, heq]

/-- Witness for C8: user 2, who is not the author, re-sends the body of message 100. -/
theorem Update_unchanged_body_noop_witness :
    svc2.Update (some { ID := 100, Message := " hello " }) repo0
      = Outcome.ok m100
          { repo0 with log := repo0.log ++ [Call.txBegin, Call.FindMessageByID 100, Call.txCommit] } :=
  Update_unchanged_body_noop svc2 { ID := 100, Message := " hello " } m100 repo0
    (by decide) rfl (by decide) (by decide)

/-- C9: when the trimmed input body is not empty and differs from the stored body, and the
acting user is not the stored message's author, `Update` fails with "Not an owner"; the
only calls are the transaction's begin, the load and the rollback, and the stores are as
before: no message write, no mention write, no emission. -/
theorem Update_changed_body_not_owner (svc : message) (inp stored : Message) (r : Repo)
    (hne : TrimSpace inp.Message ≠ "")
    (hf : svc.fault (Call.FindMessageByID inp.ID) = none)
    (hfind : MessageSet.FindByID r.messages inp.ID = some stored)
    (hdiff : stored.Message ≠ TrimSpace inp.Message)
    (huser : stored.UserID ≠ svc.currentUserID) :
    svc.Update (some inp) r
      = Outcome.fail (Err.new "Not an owner")
          { r with log := r.log ++ [Call.txBegin, Call.FindMessageByID inp.ID, Call.txRollback] } := by
  have hfound := FindMessageByID_found svc inp.ID { r with log := r.log ++ [Call.txBegin] }
    stored hf hfind
  simp [message.Update, validateBody_ok inp "update" hne, Transaction, message.updateTx,
    Op.bind, Op.wrap, hfound, hdiff, huser, Op.fail]

/-- Witness for C9: user 2 tries to change the body of message 100, written by user 1. -/
theorem Update_changed_body_not_owner_witness :
    svc2.Update (some { ID := 100, Message := "bye" }) repo0
      = Outcome.fail (Err.new "Not an owner")
          { repo0 with log := repo0.log ++ [Call.txBegin, Call.FindMessageByID 100, Call.txRollback] } :=
  Update_changed_body_not_owner svc2 { ID := 100, Message := "bye" } m100 repo0
    (by decide) rfl (by decide) (by decide) (by decide)

/-! ## Hydration: frame facts -/

theorem Repo.logged_logged (r : Repo) (l1 l2 : List Call) :
    (r.logged l1).logged l2 = r.logged (l1 ++ l2) := by
  simp [Repo.logged]

theorem Repo.logged_nil (r : Repo) : r.logged [] = r := by
  simp [Repo.logged]

theorem Quiet_nil : Quiet [] := by
  intro c hc
  cases hc

theorem Quiet_append {l1 l2 : List Call} (h1 : Quiet l1) (h2 : Quiet l2) : Quiet (l1 ++ l2) := by
  intro c hc
  rcases List.mem_append.1 hc with h | h
  · exact h1 c h
  · exact h2 c h

theorem Quiet_single {c : Call} (hw : c.isWrite = false) (he : c.isEmit = false) : Quiet [c] := by
  intro d hd
  simp at hd
  subst hd
  exact ⟨hw, he⟩

/-- The user lookup with its error handed back: always returns, one call recorded. -/
theorem attempt_usrFindByID (svc : message) (id : Nat) (r : Repo) :
    ∃ res, Op.attempt (svc.usrFindByID id) r = Outcome.ok res (r.logged [Call.usrFindByID id]) ∧
      (svc.fault (Call.usrFindByID id) = none →
        res = match UserSet.FindByID r.users id with
              | some u => Except.ok u
              | none => Except.error Err.ErrUserNotFound) := by
  cases hf : svc.fault (Call.usrFindByID id) with
  | some e =>
    exact ⟨Except.error e, by simp [Op.attempt, message.usrFindByID, message.call, hf, Repo.logged],
      by simp⟩
  | none =>
    cases hu : UserSet.FindByID r.users id with
    | none =>
      exact ⟨Except.error Err.ErrUserNotFound,
        by simp [Op.attempt, message.usrFindByID, message.call, hf, hu, Repo.logged], by simp⟩
    | some u =>
      exact ⟨Except.ok u,
        by simp [Op.attempt, message.usrFindByID, message.call, hf, hu, Repo.logged], by simp⟩

theorem UserSet_FindByID_id {uu : List User} {id : Nat} {u : User}
    (h : UserSet.FindByID uu id = some u) : u.ID = id := by
  have := List.find?_some h
  simpa using this

/-- The loop of `preloadUsers` always returns; it changes nothing but the `User` field,
its calls are user lookups, and when the directory's only failure is "not found" each
message ends with the author `hydratedAuthor` describes. -/
theorem preloadUsersLoop_spec (svc : message) :
    ∀ (mm : List Message) (uu : List User) (r : Repo),
      ∃ mm1 l, svc.preloadUsersLoop uu mm r = Outcome.ok mm1 (r.logged l) ∧
        mm1.map Message.core = mm.map Message.core ∧ Quiet l ∧
        ((∀ id, svc.fault (Call.usrFindByID id) = none) →
          (∀ id u, UserSet.FindByID uu id = some u → UserSet.FindByID r.users id = some u) →
          mm1.map (fun m => m.User) = mm.map (hydratedAuthor r.users)) := by
  intro mm
  induction mm with
  | nil =>
    intro uu r
    exact ⟨[], [], by simp [message.preloadUsersLoop, Repo.logged, pure], rfl, Quiet_nil,
      fun _ _ => rfl⟩
  | cons msg rest ih =>
    intro uu r
    by_cases hskip : (msg.User.isSome || msg.UserID == 0) = true
    · obtain ⟨mm1, l, hrun, hcore, hq, husers⟩ := ih uu r
      refine ⟨msg :: mm1, l, ?_, ?_, hq, ?_⟩
      · simp only [message.preloadUsersLoop, hskip, if_true]
        rw [Op.bind_of_ok _ _ _ _ _ hrun]
        rfl
      · simp [hcore]
      · intro h1 h2
        simp [husers h1 h2, hydratedAuthor, hskip]
    · cases hcache : UserSet.FindByID uu msg.UserID with
      | some u =>
        obtain ⟨mm1, l, hrun, hcore, hq, husers⟩ := ih uu r
        refine ⟨{ msg with User := some u } :: mm1, l, ?_, ?_, hq, ?_⟩
        · simp [message.preloadUsersLoop, hskip, hcache, Op.bind, hrun, pure]
        · simp [hcore, Message.core]
        · intro h1 h2
          simp [husers h1 h2, hydratedAuthor, hskip, h2 _ _ hcache]
      | none =>
        obtain ⟨res, hres, hresv⟩ := attempt_usrFindByID svc msg.UserID r
        cases res with
        | ok u =>
          obtain ⟨mm1, l, hrun, hcore, hq, husers⟩ :=
            ih (uu ++ [u]) (r.logged [Call.usrFindByID msg.UserID])
          refine ⟨{ msg with User := some u } :: mm1, [Call.usrFindByID msg.UserID] ++ l,
            ?_, ?_, Quiet_append (Quiet_single rfl rfl) hq, ?_⟩
          · simp [message.preloadUsersLoop, hskip, hcache, Op.bind, hrun, hres, pure,
              Repo.logged_logged]
          · simp [hcore, Message.core]
          · intro h1 h2
            have hu : UserSet.FindByID r.users msg.UserID = some u := by
              have := hresv (h1 _)
              cases hfind : UserSet.FindByID r.users msg.UserID with
              | none => simp [hfind] at this
              | some v =>
                simp [hfind] at this
                simp [this]
            have hinv : ∀ id v, UserSet.FindByID (uu ++ [u]) id = some v →
                UserSet.FindByID (r.logged [Call.usrFindByID msg.UserID]).users id = some v := by
              intro id v hv
              simp only [UserSet.FindByID, List.find?_append] at hv
              cases hc : List.find? (fun u => u.ID == id) uu with
              | some w =>
                simp [hc] at hv
                subst hv
                exact h2 id w hc
              | none =>
                simp [hc] at hv
                obtain ⟨hid, huv⟩ := hv
                subst huv
                have hid2 : u.ID = msg.UserID := UserSet_FindByID_id hu
                have : id = msg.UserID := by omega
                subst this
                simpa [Repo.logged] using hu
            have := husers h1 hinv
            simp [Repo.logged] at this
            simp [this, hydratedAuthor, hskip, hu]
        | error e =>
          obtain ⟨mm1, l, hrun, hcore, hq, husers⟩ :=
            ih uu (r.logged [Call.usrFindByID msg.UserID])
          refine ⟨{ msg with User := none } :: mm1, [Call.usrFindByID msg.UserID] ++ l,
            ?_, ?_, Quiet_append (Quiet_single rfl rfl) hq, ?_⟩
          · simp [message.preloadUsersLoop, hskip, hcache, Op.bind, hrun, hres, pure,
              Repo.logged_logged]
          · simp [hcore, Message.core]
          · intro h1 h2
            have hu : UserSet.FindByID r.users msg.UserID = none := by
              have := hresv (h1 _)
              cases hfind : UserSet.FindByID r.users msg.UserID with
              | none => rfl
              | some v => simp [hfind] at this
            have := husers h1 (by simpa [Repo.logged] using h2)
            simp [Repo.logged] at this
            simp [this, hydratedAuthor, hskip, hu]

theorem call_read {α : Type} (svc : message) (c : Call) (g : Repo → α) (r : Repo) :
    svc.call c (fun r1 => Except.ok (g r1, r1)) r
      = match svc.fault c with
        | some e => Outcome.fail e (r.logged [c])
        | none => Outcome.ok (g (r.logged [c])) (r.logged [c]) := by
  cases h : svc.fault c <;> simp [message.call, h, Repo.logged]

theorem IDs_of_core {mm1 mm : List Message}
    (h : mm1.map Message.core = mm.map Message.core) : MessageSet.IDs mm1 = MessageSet.IDs mm := by
  have := congrArg (List.map (fun m : Message => m.ID)) h
  simpa [MessageSet.IDs, Message.core, Function.comp_def] using this

theorem attachmentIDs_of_core {mm1 mm : List Message}
    (h : mm1.map Message.core = mm.map Message.core) : attachmentIDs mm1 = attachmentIDs mm := by
  have := congrArg attachmentIDs h
  simpa [attachmentIDs, Message.core, List.filter_map, Function.comp_def] using this

theorem updateFirst_map {β : Type} (g : Message → β) (f : Message → Message) (id : Nat)
    (h : ∀ m, g (f m) = g m) :
    ∀ mm : List Message, (MessageSet.updateFirst id f mm).map g = mm.map g := by
  intro mm
  induction mm with
  | nil => rfl
  | cons m rest ih =>
    by_cases hm : (m.ID == id) = true
    · simp [MessageSet.updateFirst, hm, h]
    · simp [MessageSet.updateFirst, hm, ih]

theorem attachOne_frame (mm : List Message) (a : MessageAttachment) :
    (attachOne mm a).map Message.core = mm.map Message.core ∧
    (attachOne mm a).map (fun m => m.User) = mm.map (fun m => m.User) := by
  unfold attachOne
  split
  · exact ⟨updateFirst_map Message.core
        (fun m => { m with Attachment := some a.Attachment }) a.MessageID (fun m => rfl) mm,
      updateFirst_map (fun m => m.User)
        (fun m => { m with Attachment := some a.Attachment }) a.MessageID (fun m => rfl) mm⟩
  · exact ⟨rfl, rfl⟩

theorem attachAll_frame (aa : List MessageAttachment) :
    ∀ mm : List Message,
      (aa.foldl attachOne mm).map Message.core = mm.map Message.core ∧
      (aa.foldl attachOne mm).map (fun m => m.User) = mm.map (fun m => m.User) := by
  induction aa with
  | nil =>
    intro mm
    exact ⟨rfl, rfl⟩
  | cons a rest ih =>
    intro mm
    obtain ⟨h1, h2⟩ := attachOne_frame mm a
    obtain ⟨i1, i2⟩ := ih (attachOne mm a)
    exact ⟨by simpa [List.foldl] using i1.trans h1, by simpa [List.foldl] using i2.trans h2⟩

theorem FindByID_isSome_of_mem {mm : List Message} {id : Nat} (h : id ∈ MessageSet.IDs mm) :
    ∃ m, MessageSet.FindByID mm id = some m := by
  cases hf : MessageSet.FindByID mm id with
  | some m => exact ⟨m, rfl⟩
  | none =>
    simp [MessageSet.FindByID] at hf
    simp [MessageSet.IDs] at h
    obtain ⟨m, hm, hid⟩ := h
    exact absurd hid (hf m hm)

/-- The flag walk succeeds when every flag belongs to a message of the set; it changes
nothing but the `Flags` field. -/
theorem flagAll_frame (ff : List MessageFlag) :
    ∀ mm : List Message, (∀ f ∈ ff, f.MessageID ∈ MessageSet.IDs mm) →
      ∃ mm1, flagAll ff mm = Except.ok mm1 ∧ mm1.map Message.core = mm.map Message.core ∧
        mm1.map (fun m => m.User) = mm.map (fun m => m.User) := by
  induction ff with
  | nil =>
    intro mm _
    exact ⟨mm, rfl, rfl, rfl⟩
  | cons f rest ih =>
    intro mm hmem
    obtain ⟨m, hm⟩ := FindByID_isSome_of_mem (hmem f (List.mem_cons_self _ _))
    have hcore : (MessageSet.updateFirst f.MessageID
        (fun m => { m with Flags := m.Flags ++ [f] }) mm).map Message.core = mm.map Message.core :=
      updateFirst_map Message.core (fun m => { m with Flags := m.Flags ++ [f] }) f.MessageID
        (fun m => rfl) mm
    have huser : (MessageSet.updateFirst f.MessageID
        (fun m => { m with Flags := m.Flags ++ [f] }) mm).map (fun m => m.User)
          = mm.map (fun m => m.User) :=
      updateFirst_map (fun m => m.User) (fun m => { m with Flags := m.Flags ++ [f] }) f.MessageID
        (fun m => rfl) mm
    obtain ⟨mm1, h1, h2, h3⟩ := ih _ (by
      intro g hg
      rw [IDs_of_core hcore]
      exact hmem g (List.mem_cons_of_mem _ hg))
    refine ⟨mm1, ?_, h2.trans hcore, h3.trans huser⟩
    simp [flagAll, flagOne, hm, h1]

theorem preloadAttachments_spec (svc : message) (mm : List Message) (r : Repo) :
    (∀ e, svc.fault (Call.FindAttachmentByMessageID (attachmentIDs mm)) = some e →
      svc.preloadAttachments mm r
        = Outcome.fail e (r.logged [Call.FindAttachmentByMessageID (attachmentIDs mm)])) ∧
    (svc.fault (Call.FindAttachmentByMessageID (attachmentIDs mm)) = none →
      ∃ mm1, svc.preloadAttachments mm r
          = Outcome.ok mm1 (r.logged [Call.FindAttachmentByMessageID (attachmentIDs mm)]) ∧
        mm1.map Message.core = mm.map Message.core ∧
        mm1.map (fun m => m.User) = mm.map (fun m => m.User)) := by
  constructor
  · intro e he
    simp [message.preloadAttachments, message.FindAttachmentByMessageID, call_read, Op.bind, he]
  · intro hn
    refine ⟨(r.attachments.filter (fun a => (attachmentIDs mm).contains a.MessageID)).foldl
      attachOne mm, ?_, attachAll_frame _ mm⟩
    simp only [message.preloadAttachments, message.FindAttachmentByMessageID, call_read, Op.bind,
      hn, pure, Repo.logged]

theorem preloadFlags_spec (svc : message) (mm : List Message) (r : Repo) :
    (∀ e, svc.fault (Call.mflagFindByMessageIDs (MessageSet.IDs mm)) = some e →
      svc.preloadFlags mm r
        = Outcome.fail e (r.logged [Call.mflagFindByMessageIDs (MessageSet.IDs mm)])) ∧
    (svc.fault (Call.mflagFindByMessageIDs (MessageSet.IDs mm)) = none →
      ∃ mm1, svc.preloadFlags mm r
          = Outcome.ok mm1 (r.logged [Call.mflagFindByMessageIDs (MessageSet.IDs mm)]) ∧
        mm1.map Message.core = mm.map Message.core ∧
        mm1.map (fun m => m.User) = mm.map (fun m => m.User)) := by
  constructor
  · intro e he
    simp [message.preloadFlags, message.mflagFindByMessageIDs, call_read, Op.bind, he]
  · intro hn
    obtain ⟨mm1, h1, h2, h3⟩ := flagAll_frame
      (r.mflags.filter (fun f => (MessageSet.IDs mm).contains f.MessageID)) mm (by
        intro f hf
        simpa using (List.mem_filter.1 hf).2)
    refine ⟨mm1, ?_, h2, h3⟩
    simp only [message.preloadFlags, message.mflagFindByMessageIDs, call_read, Op.bind, hn,
      Repo.logged, h1, pure]

theorem preloadMentions_spec (svc : message) (mm : List Message) (r : Repo) :
    (∀ e, svc.fault (Call.mentionsFindByMessageIDs (MessageSet.IDs mm)) = some e →
      svc.preloadMentions mm r
        = Outcome.fail e (r.logged [Call.mentionsFindByMessageIDs (MessageSet.IDs mm)])) ∧
    (svc.fault (Call.mentionsFindByMessageIDs (MessageSet.IDs mm)) = none →
      ∃ mm1, svc.preloadMentions mm r
          = Outcome.ok mm1 (r.logged [Call.mentionsFindByMessageIDs (MessageSet.IDs mm)]) ∧
        mm1.map Message.core = mm.map Message.core ∧
        mm1.map (fun m => m.User) = mm.map (fun m => m.User)) := by
  constructor
  · intro e he
    simp [message.preloadMentions, message.mentionsFindByMessageIDs, call_read, Op.bind, he]
  · intro hn
    let found := r.mentions.filter (fun x => (MessageSet.IDs mm).contains x.MessageID)
    refine ⟨mm.map (fun m => { m with Mentions := MentionSet.FindByMessageID found m.ID }),
      ?_, ?_, ?_⟩
    · simp only [message.preloadMentions, message.mentionsFindByMessageIDs, call_read, Op.bind,
        hn, pure, Repo.logged]
    · simp [Message.core, Function.comp_def]
    · simp [Function.comp_def]

theorem PrefillThreadParticipants_spec (svc : message) (mm : List Message) (r : Repo) :
    (∀ e, svc.fault (Call.PrefillThreadParticipants (MessageSet.IDs mm)) = some e →
      svc.PrefillThreadParticipants mm r
        = Outcome.fail e (r.logged [Call.PrefillThreadParticipants (MessageSet.IDs mm)])) ∧
    (svc.fault (Call.PrefillThreadParticipants (MessageSet.IDs mm)) = none →
      svc.PrefillThreadParticipants mm r
        = Outcome.ok mm (r.logged [Call.PrefillThreadParticipants (MessageSet.IDs mm)])) := by
  constructor
  · intro e he
    simp [message.PrefillThreadParticipants, call_read, he]
  · intro hn
    simp [message.PrefillThreadParticipants, call_read, hn]

/-- Outcome of `preload`: it fails when one of its four batched lookups is set to fail,
and succeeds otherwise, whatever the user lookups do; its calls are reads; on success only
hydrated fields have changed, and when the user directory's only failure is "not found"
the authors are those `hydratedAuthor` describes. -/
theorem preload_spec (svc : message) (mm : List Message) (r : Repo) :
    (svc.batchedLookupFails mm = true →
      ∃ e l, svc.preload mm r = Outcome.fail e (r.logged l) ∧ Quiet l) ∧
    (svc.batchedLookupFails mm = false →
      ∃ mm1 l, svc.preload mm r = Outcome.ok mm1 (r.logged l) ∧ Quiet l ∧
        mm1.map Message.core = mm.map Message.core ∧
        ((∀ id, svc.fault (Call.usrFindByID id) = none) →
          mm1.map (fun m => m.User) = mm.map (hydratedAuthor r.users))) := by
  obtain ⟨mmU, lU, hU, hcoreU, hqU, husersU⟩ := preloadUsersLoop_spec svc mm [] r
  obtain ⟨hAf, hAo⟩ := preloadAttachments_spec svc mmU (r.logged lU)
  rw [attachmentIDs_of_core hcoreU] at hAf hAo
  simp only [Repo.logged_logged, List.append_assoc, List.cons_append, List.nil_append] at hAf hAo
  cases hfA : svc.fault (Call.FindAttachmentByMessageID (attachmentIDs mm)) with
  | some e =>
    refine ⟨fun _ => ⟨e, lU ++ [Call.FindAttachmentByMessageID (attachmentIDs mm)], ?_,
      Quiet_append hqU (Quiet_single rfl rfl)⟩, fun hno => ?_⟩
    · simp [message.preload, message.preloadUsers, Op.bind, hU, hAf e hfA, Repo.logged_logged]
    · simp [message.batchedLookupFails, hfA] at hno
  | none =>
    obtain ⟨mmA, hA, hcoreA, huserA⟩ := hAo hfA
    have hcA := hcoreA.trans hcoreU
    obtain ⟨hFf, hFo⟩ := preloadFlags_spec svc mmA
      (r.logged (lU ++ [Call.FindAttachmentByMessageID (attachmentIDs mm)]))
    rw [IDs_of_core hcA] at hFf hFo
    simp only [Repo.logged_logged, List.append_assoc, List.cons_append, List.nil_append] at hFf hFo
    cases hfF : svc.fault (Call.mflagFindByMessageIDs (MessageSet.IDs mm)) with
    | some e =>
      refine ⟨fun _ => ⟨e, lU ++ [Call.FindAttachmentByMessageID (attachmentIDs mm)] ++
        [Call.mflagFindByMessageIDs (MessageSet.IDs mm)], ?_,
        Quiet_append (Quiet_append hqU (Quiet_single rfl rfl)) (Quiet_single rfl rfl)⟩,
        fun hno => ?_⟩
      · simp [message.preload, message.preloadUsers, Op.bind, hU, hA, hFf e hfF,
          Repo.logged_logged]
      · simp [message.batchedLookupFails, hfF] at hno
    | none =>
      obtain ⟨mmF, hF, hcoreF, huserF⟩ := hFo hfF
      have hcF := hcoreF.trans hcA
      obtain ⟨hMf, hMo⟩ := preloadMentions_spec svc mmF
        (r.logged (lU ++ [Call.FindAttachmentByMessageID (attachmentIDs mm)] ++
          [Call.mflagFindByMessageIDs (MessageSet.IDs mm)]))
      rw [IDs_of_core hcF] at hMf hMo
      simp only [Repo.logged_logged, List.append_assoc, List.cons_append, List.nil_append] at hMf hMo
      cases hfM : svc.fault (Call.mentionsFindByMessageIDs (MessageSet.IDs mm)) with
      | some e =>
        refine ⟨fun _ => ⟨e, lU ++ [Call.FindAttachmentByMessageID (attachmentIDs mm)] ++
          [Call.mflagFindByMessageIDs (MessageSet.IDs mm)] ++
          [Call.mentionsFindByMessageIDs (MessageSet.IDs mm)], ?_,
          Quiet_append (Quiet_append (Quiet_append hqU (Quiet_single rfl rfl))
            (Quiet_single rfl rfl)) (Quiet_single rfl rfl)⟩, fun hno => ?_⟩
        · simp [message.preload, message.preloadUsers, Op.bind, hU, hA, hF, hMf e hfM,
            Repo.logged_logged]
        · simp [message.batchedLookupFails, hfM] at hno
      | none =>
        obtain ⟨mmM, hM, hcoreM, huserM⟩ := hMo hfM
        have hcM := hcoreM.trans hcF
        obtain ⟨hPf, hPo⟩ := PrefillThreadParticipants_spec svc mmM
          (r.logged (lU ++ [Call.FindAttachmentByMessageID (attachmentIDs mm)] ++
            [Call.mflagFindByMessageIDs (MessageSet.IDs mm)] ++
            [Call.mentionsFindByMessageIDs (MessageSet.IDs mm)]))
        rw [IDs_of_core hcM] at hPf hPo
        simp only [Repo.logged_logged, List.append_assoc, List.cons_append, List.nil_append] at hPf hPo
        have hq4 : Quiet (lU ++ [Call.FindAttachmentByMessageID (attachmentIDs mm)] ++
            [Call.mflagFindByMessageIDs (MessageSet.IDs mm)] ++
            [Call.mentionsFindByMessageIDs (MessageSet.IDs mm)] ++
            [Call.PrefillThreadParticipants (MessageSet.IDs mm)]) :=
          Quiet_append (Quiet_append (Quiet_append (Quiet_append hqU (Quiet_single rfl rfl))
            (Quiet_single rfl rfl)) (Quiet_single rfl rfl)) (Quiet_single rfl rfl)
        cases hfP : svc.fault (Call.PrefillThreadParticipants (MessageSet.IDs mm)) with
        | some e =>
          refine ⟨fun _ => ⟨e, _, ?_, hq4⟩, fun hno => ?_⟩
          · simp [message.preload, message.preloadUsers, Op.bind, hU, hA, hF, hM, hPf e hfP,
              Repo.logged_logged]
          · simp [message.batchedLookupFails, hfP] at hno
        | none =>
          refine ⟨fun hyes => ?_, fun _ => ⟨mmM, _, ?_, hq4, hcM, fun husr => ?_⟩⟩
          · simp [message.batchedLookupFails, hfA, hfF, hfM, hfP] at hyes
          · simp [message.preload, message.preloadUsers, Op.bind, hU, hA, hF, hM, hPo hfP,
              Repo.logged_logged]
          · rw [huserM, huserF, huserA]
            exact husersU husr (fun id u h => by simp [UserSet.FindByID] at h)

/-! ## C4: errors of the hydration lookups -/

/-- C4 (counterexample): message 100 is preloaded for an author (user 5) the user
directory does not know.  The author lookup fails with "user not found", yet `preload`
returns without an error and with the message's author unset. -/
theorem preload_ok_though_author_lookup_fails :
    (svc1.usrFindByID 5 repo0).err = some Err.ErrUserNotFound ∧
    (svc1.preload [{ m100 with UserID := 5 }] repo0).err = none ∧
    (svc1.preload [{ m100 with UserID := 5 }] repo0).val.map (fun mm => mm.map (fun m => m.User))
      = some [none] := by
  decide!

/-- C4 (amended): if the attachment, flag, mention or thread-participant lookup of
`preload` fails, `preload` returns an error; and when none of them fails and the user
directory's only failure is "user not found", `preload` succeeds, changes only hydrated
fields, and a message whose author is unknown to the directory is returned with its
author unset. -/
theorem preload_error_propagation (svc : message) (mm : List Message) (r : Repo) :
    (svc.batchedLookupFails mm = true → (svc.preload mm r).err ≠ none) ∧
    (svc.batchedLookupFails mm = false → (∀ id, svc.fault (Call.usrFindByID id) = none) →
      ∃ mm1 r1, svc.preload mm r = Outcome.ok mm1 r1 ∧
        mm1.map Message.core = mm.map Message.core ∧
        mm1.map (fun m => m.User) = mm.map (hydratedAuthor r.users)) := by
  obtain ⟨hfail, hok⟩ := preload_spec svc mm r
  constructor
  · intro h
    obtain ⟨e, l, hrun, _⟩ := hfail h
    simp [hrun, Outcome.err]
  · intro h husr
    obtain ⟨mm1, l, hrun, _, hcore, husers⟩ := hok h
    exact ⟨mm1, _, hrun, hcore, husers husr⟩

/-- Witness for C4 (amended): with working lookups, message 100 with unknown author 5 is
preloaded without error. -/
theorem preload_error_propagation_witness :
    ∃ mm1 r1, svc1.preload [{ m100 with UserID := 5 }] repo0 = Outcome.ok mm1 r1 ∧
      mm1.map Message.core = [{ m100 with UserID := 5 }].map Message.core ∧
      mm1.map (fun m => m.User) = [{ m100 with UserID := 5 }].map (hydratedAuthor repo0.users) :=
  (preload_error_propagation svc1 [{ m100 with UserID := 5 }] repo0).2 (by decide)
    (fun _ => rfl)

/-! ## Event emission: what `sendEvent` records -/

theorem NoWrite_nil : NoWrite [] := by
  intro c hc
  cases hc

theorem NoWrite_append {l1 l2 : List Call} (h1 : NoWrite l1) (h2 : NoWrite l2) :
    NoWrite (l1 ++ l2) := by
  intro c hc
  rcases List.mem_append.1 hc with h | h
  · exact h1 c h
  · exact h2 c h

theorem NoEmit_nil : NoEmit [] := by
  intro c hc
  cases hc

theorem NoEmit_append {l1 l2 : List Call} (h1 : NoEmit l1) (h2 : NoEmit l2) :
    NoEmit (l1 ++ l2) := by
  intro c hc
  rcases List.mem_append.1 hc with h | h
  · exact h1 c h
  · exact h2 c h

theorem Quiet.noWrite {l : List Call} (h : Quiet l) : NoWrite l := fun c hc => (h c hc).1

theorem Quiet.noEmit {l : List Call} (h : Quiet l) : NoEmit l := fun c hc => (h c hc).2

/-- The author step of the `sendEvent` loop: always returns, with the stored part of the
message unchanged and at most a user lookup recorded. -/
theorem sendEvent_author (svc : message) (msg : Message) (r : Repo) :
    ∃ msg1 l, (if msg.User.isNone then
        Op.bind (Op.attempt (svc.usrFindByID msg.UserID)) (fun res =>
          match res with
          | Except.ok u => pure { msg with User := some u }
          | Except.error _ => pure { msg with User := none })
      else pure msg) r = Outcome.ok msg1 (r.logged l) ∧ msg1.core = msg.core ∧ Quiet l := by
  by_cases hn : msg.User.isNone = true
  · obtain ⟨res, hres, _⟩ := attempt_usrFindByID svc msg.UserID r
    cases res with
    | ok u =>
      exact ⟨{ msg with User := some u }, [Call.usrFindByID msg.UserID],
        by simp [hn, Op.bind, hres, pure], rfl, Quiet_single rfl rfl⟩
    | error e =>
      exact ⟨{ msg with User := none }, [Call.usrFindByID msg.UserID],
        by simp [hn, Op.bind, hres, pure], rfl, Quiet_single rfl rfl⟩
  · exact ⟨msg, [], by simp [hn, pure, Repo.logged_nil], rfl, Quiet_nil⟩

/-- The loop of `sendEvent`.  It returns; it records no store write; on success every
message of the result has been handed over; on failure the last call is the emission that
failed. -/
theorem sendEventLoop_spec (svc : message) :
    ∀ (mm : List Message) (r : Repo),
      (∃ mm1 l, svc.sendEventLoop mm r = Outcome.ok mm1 (r.logged l) ∧ NoWrite l ∧
          mm1.map Message.core = mm.map Message.core ∧
          (∀ m ∈ mm1, Call.evlMessage m ∈ l)) ∨
      (∃ e pre m, svc.sendEventLoop mm r = Outcome.fail e (r.logged (pre ++ [Call.evlMessage m])) ∧
          NoWrite (pre ++ [Call.evlMessage m]) ∧ svc.fault (Call.evlMessage m) = some e) := by
  intro mm
  induction mm with
  | nil =>
    intro r
    exact Or.inl ⟨[], [], by simp [message.sendEventLoop, pure, Repo.logged_nil], NoWrite_nil,
      rfl, by simp⟩
  | cons msg rest ih =>
    intro r
    obtain ⟨msg1, lA, hA, hcoreA, hqA⟩ := sendEvent_author svc msg r
    cases hf : svc.fault (Call.evlMessage msg1) with
    | some e =>
      refine Or.inr ⟨e, lA, msg1, ?_, NoWrite_append hqA.noWrite ?_, hf⟩
      · simp only [message.sendEventLoop]
        rw [Op.bind_of_ok _ _ _ _ _ hA]
        simp [Op.bind, message.evlMessage, call_read, hf, Repo.logged_logged]
      · intro c hc
        simp at hc
        subst hc
        rfl
    | none =>
      have hE : svc.evlMessage msg1 (r.logged lA)
          = Outcome.ok () (r.logged (lA ++ [Call.evlMessage msg1])) := by
        simp [message.evlMessage, call_read, hf, Repo.logged_logged]
      have hw1 : NoWrite (lA ++ [Call.evlMessage msg1]) := by
        refine NoWrite_append hqA.noWrite ?_
        intro c hc
        simp at hc
        subst hc
        rfl
      rcases ih (r.logged (lA ++ [Call.evlMessage msg1])) with
        ⟨mm1, l, hrun, hnw, hcore, hsent⟩ | ⟨e, pre, m, hrun, hnw, hfm⟩
      · refine Or.inl ⟨msg1 :: mm1, lA ++ [Call.evlMessage msg1] ++ l, ?_,
          NoWrite_append hw1 hnw, by simp [hcore, hcoreA], ?_⟩
        · simp only [message.sendEventLoop]
          rw [Op.bind_of_ok _ _ _ _ _ hA, Op.bind_of_ok _ _ _ _ _ hE,
            Op.bind_of_ok _ _ _ _ _ hrun, Repo.logged_logged]
          rfl
        · intro m hm
          rcases List.mem_cons.1 hm with h | h
          · subst h
            simp
          · have := hsent m h
            simp [this]
      · refine Or.inr ⟨e, lA ++ [Call.evlMessage msg1] ++ pre, m, ?_, ?_, hfm⟩
        · simp only [message.sendEventLoop]
          rw [Op.bind_of_ok _ _ _ _ _ hA, Op.bind_of_ok _ _ _ _ _ hE,
            Op.bind_of_fail _ _ _ _ _ hrun, Repo.logged_logged]
          simp
        · have := NoWrite_append hw1 hnw
          simpa using this

/-- `sendEvent`: it returns; it records no store write; on success the stored part of the
messages is unchanged and each message of the result has been handed over; on failure
either nothing was handed over (a batched lookup failed) or the last call is the emission
that failed. -/
theorem sendEvent_spec (svc : message) (mm : List Message) (r : Repo) :
    (∃ mm1 l, svc.sendEvent mm r = Outcome.ok mm1 (r.logged l) ∧ NoWrite l ∧
        mm1.map Message.core = mm.map Message.core ∧
        (∀ m ∈ mm1, Call.evlMessage m ∈ l)) ∨
    (∃ e l, svc.sendEvent mm r = Outcome.fail e (r.logged l) ∧ NoWrite l ∧
        (NoEmit l ∨ ∃ pre m, l = pre ++ [Call.evlMessage m] ∧
          svc.fault (Call.evlMessage m) = some e)) := by
  obtain ⟨hfail, hok⟩ := preload_spec svc mm r
  cases hb : svc.batchedLookupFails mm with
  | true =>
    obtain ⟨e, l, hrun, hq⟩ := hfail hb
    exact Or.inr ⟨e, l, by simp [message.sendEvent, Op.bind, hrun], hq.noWrite, Or.inl hq.noEmit⟩
  | false =>
    obtain ⟨mm0, l0, hrun0, hq0, hcore0, _⟩ := hok hb
    rcases sendEventLoop_spec svc mm0 (r.logged l0) with
      ⟨mm1, l, hrun, hnw, hcore, hsent⟩ | ⟨e, pre, m, hrun, hnw, hfm⟩
    · refine Or.inl ⟨mm1, l0 ++ l, ?_, NoWrite_append hq0.noWrite hnw, hcore.trans hcore0, ?_⟩
      · simp [message.sendEvent, Op.bind, hrun0, hrun, Repo.logged_logged]
      · intro m hm
        exact List.mem_append_right _ (hsent m hm)
    · refine Or.inr ⟨e, l0 ++ (pre ++ [Call.evlMessage m]), ?_,
        NoWrite_append hq0.noWrite hnw, Or.inr ⟨l0 ++ pre, m, by simp, hfm⟩⟩
      simp [message.sendEvent, Op.bind, hrun0, hrun, Repo.logged_logged]

/-- With working batched lookups and a working event service `sendEvent` succeeds. -/
theorem sendEvent_ok (svc : message) (mm : List Message) (r : Repo)
    (hf : ∀ c, svc.fault c = none) :
    ∃ mm1 l, svc.sendEvent mm r = Outcome.ok mm1 (r.logged l) ∧ NoWrite l ∧
      mm1.map Message.core = mm.map Message.core ∧ (∀ m ∈ mm1, Call.evlMessage m ∈ l) := by
  obtain ⟨_, hok⟩ := preload_spec svc mm r
  have hb : svc.batchedLookupFails mm = false := by
    simp [message.batchedLookupFails, hf]
  obtain ⟨mm0, l0, hrun0, hq0, hcore0, _⟩ := hok hb
  rcases sendEventLoop_spec svc mm0 (r.logged l0) with
    ⟨mm1, l, hrun, hnw, hcore, hsent⟩ | ⟨e, pre, m, _, _, hfm⟩
  · refine ⟨mm1, l0 ++ l, ?_, NoWrite_append hq0.noWrite hnw, hcore.trans hcore0, ?_⟩
    · simp [message.sendEvent, Op.bind, hrun0, hrun, Repo.logged_logged]
    · intro m hm
      exact List.mem_append_right _ (hsent m hm)
  · simp [hf] at hfm

/-! ## Mention synchronisation: frame -/

theorem MentionStep.refl (r : Repo) : MentionStep r r :=
  ⟨rfl, rfl, rfl, rfl, [], by simp, by simp⟩

theorem MentionStep.trans {r r1 r2 : Repo} (h1 : MentionStep r r1) (h2 : MentionStep r1 r2) :
    MentionStep r r2 := by
  obtain ⟨l1, hl1, hc1⟩ := h1.log
  obtain ⟨l2, hl2, hc2⟩ := h2.log
  refine ⟨h2.messages.trans h1.messages, h2.mflags.trans h1.mflags,
    h2.attachments.trans h1.attachments, h2.users.trans h1.users, l1 ++ l2, ?_, ?_⟩
  · rw [hl2, hl1, List.append_assoc]
  · intro c hc
    rcases List.mem_append.1 hc with h | h
    · exact hc1 c h
    · exact hc2 c h

theorem Steps_bind {α β : Type} {R : Repo → Repo → Prop}
    (htrans : ∀ a b c, R a b → R b c → R a c) {x : Op α} {f : α → Op β} {r : Repo}
    (hx : Steps R x r) (hf : ∀ a r1, x r = Outcome.ok a r1 → Steps R (f a) r1) :
    Steps R (Op.bind x f) r := by
  unfold Steps Op.bind
  unfold Steps at hx
  cases hxr : x r with
  | ok a r1 =>
    rw [hxr] at hx
    have h2 := hf a r1 hxr
    unfold Steps at h2
    simp only []
    cases hfr : f a r1 with
    | ok b r2 =>
      rw [hfr] at h2
      exact htrans _ _ _ hx h2
    | fail e r2 =>
      rw [hfr] at h2
      exact htrans _ _ _ hx h2
    | diverge =>
      rw [hfr] at h2
      exact h2
  | fail e r1 =>
    rw [hxr] at hx
    exact hx
  | diverge =>
    rw [hxr] at hx
    exact hx

theorem Steps_wrap {α : Type} {R : Repo → Repo → Prop} {x : Op α} {r : Repo} (msg : String)
    (hx : Steps R x r) : Steps R (Op.wrap x msg) r := by
  unfold Steps Op.wrap
  unfold Steps at hx
  cases hxr : x r <;> rw [hxr] at hx <;> exact hx

theorem Steps_walk {α : Type} {R : Repo → Repo → Prop} (hrefl : ∀ a, R a a)
    (htrans : ∀ a b c, R a b → R b c → R a c) (f : α → Op Unit)
    (hf : ∀ a r, Steps R (f a) r) : ∀ (l : List α) (r : Repo), Steps R (walk f l) r := by
  intro l
  induction l with
  | nil =>
    intro r
    exact hrefl r
  | cons a rest ih =>
    intro r
    exact Steps_bind htrans (hf a r) (fun _ r1 _ => ih r1)

theorem Succeeds_bind {α β : Type} {x : Op α} {f : α → Op β} {r : Repo}
    (hx : Succeeds x r) (hf : ∀ a r1, x r = Outcome.ok a r1 → Succeeds (f a) r1) :
    Succeeds (Op.bind x f) r := by
  obtain ⟨a, r1, h⟩ := hx
  obtain ⟨b, r2, h2⟩ := hf a r1 h
  exact ⟨b, r2, by simp [Op.bind, h, h2]⟩

theorem Succeeds_wrap {α : Type} {x : Op α} {r : Repo} (msg : String) (hx : Succeeds x r) :
    Succeeds (Op.wrap x msg) r := by
  obtain ⟨a, r1, h⟩ := hx
  exact ⟨a, r1, by simp [Op.wrap, h]⟩

theorem Succeeds_walk {α : Type} (f : α → Op Unit) (hf : ∀ a r, Succeeds (f a) r) :
    ∀ (l : List α) (r : Repo), Succeeds (walk f l) r := by
  intro l
  induction l with
  | nil =>
    intro r
    exact ⟨(), r, rfl⟩
  | cons a rest ih =>
    intro r
    exact Succeeds_bind (hf a r) (fun _ r1 _ => ih r1)

theorem mentionsFindByMessageIDs_steps (svc : message) (ids : List Nat) (r : Repo) :
    Steps MentionStep (svc.mentionsFindByMessageIDs ids) r := by
  unfold Steps
  rw [message.mentionsFindByMessageIDs, call_read]
  cases svc.fault (Call.mentionsFindByMessageIDs ids) <;>
    exact ⟨rfl, rfl, rfl, rfl, [Call.mentionsFindByMessageIDs ids], rfl, by simp [Call.isMention]⟩

theorem mentionsCreate_steps (svc : message) (m : Mention) (r : Repo) :
    Steps MentionStep (svc.mentionsCreate m) r := by
  unfold Steps
  simp only [message.mentionsCreate, message.call]
  cases svc.fault (Call.mentionsCreate m) <;>
    exact ⟨rfl, rfl, rfl, rfl, [Call.mentionsCreate m], rfl, by simp [Call.isMention]⟩

theorem mentionsDeleteByID_steps (svc : message) (id : Nat) (r : Repo) :
    Steps MentionStep (svc.mentionsDeleteByID id) r := by
  unfold Steps
  simp only [message.mentionsDeleteByID, message.call]
  cases svc.fault (Call.mentionsDeleteByID id) <;>
    exact ⟨rfl, rfl, rfl, rfl, [Call.mentionsDeleteByID id], rfl, by simp [Call.isMention]⟩

theorem mentionsDeleteByMessageID_steps (svc : message) (id : Nat) (r : Repo) :
    Steps MentionStep (svc.mentionsDeleteByMessageID id) r := by
  unfold Steps
  simp only [message.mentionsDeleteByMessageID, message.call]
  cases svc.fault (Call.mentionsDeleteByMessageID id) <;>
    exact ⟨rfl, rfl, rfl, rfl, [Call.mentionsDeleteByMessageID id], rfl, by simp [Call.isMention]⟩

theorem MentionStep_bind {α β : Type} {x : Op α} {f : α → Op β} {r : Repo}
    (hx : Steps MentionStep x r)
    (hf : ∀ a r1, x r = Outcome.ok a r1 → Steps MentionStep (f a) r1) :
    Steps MentionStep (Op.bind x f) r :=
  @Steps_bind α β MentionStep (fun _ _ _ h1 h2 => MentionStep.trans h1 h2) x f r hx hf

theorem MentionStep_walk {α : Type} (f : α → Op Unit)
    (hf : ∀ a r, Steps MentionStep (f a) r) (l : List α) (r : Repo) :
    Steps MentionStep (walk f l) r :=
  @Steps_walk α MentionStep MentionStep.refl (fun _ _ _ h1 h2 => MentionStep.trans h1 h2) f hf l r

/-- `updateMentions` returns, and touches nothing but the mention store. -/
theorem updateMentions_steps (svc : message) (messageID : Nat) (mm : List Mention) (r : Repo) :
    Steps MentionStep (svc.updateMentions messageID mm) r := by
  unfold message.updateMentions
  refine MentionStep_bind (Steps_wrap _ (mentionsFindByMessageIDs_steps svc _ r)) ?_
  intro existing r1 _
  split
  · refine MentionStep_bind (Steps_wrap _ ?_) ?_
    · refine MentionStep_walk _ ?_ _ _
      intro m r2
      exact MentionStep_bind (mentionsCreate_steps svc m r2) (fun _ r3 _ => MentionStep.refl r3)
    · intro _ r2 _
      refine Steps_wrap _ ?_
      exact MentionStep_walk _ (fun (m : Mention) r3 => mentionsDeleteByID_steps svc m.ID r3) _ _
  · exact mentionsDeleteByMessageID_steps svc messageID r1

/-- With working collaborators `updateMentions` succeeds. -/
theorem updateMentions_ok (svc : message) (hf : ∀ c, svc.fault c = none) (messageID : Nat)
    (mm : List Mention) (r : Repo) : Succeeds (svc.updateMentions messageID mm) r := by
  unfold message.updateMentions
  refine Succeeds_bind (Succeeds_wrap _ ?_) ?_
  · unfold Succeeds
    simp only [message.mentionsFindByMessageIDs, message.call, hf]
    exact ⟨_, _, rfl⟩
  intro existing r1 _
  split
  · refine Succeeds_bind (Succeeds_wrap _ ?_) ?_
    · refine Succeeds_walk _ ?_ _ _
      intro m r2
      refine Succeeds_bind ?_ (fun _ r3 _ => ⟨(), r3, rfl⟩)
      unfold Succeeds
      simp only [message.mentionsCreate, message.call, hf]
      exact ⟨_, _, rfl⟩
    · intro _ r2 _
      refine Succeeds_wrap _ (Succeeds_walk _ ?_ _ _)
      intro m r3
      unfold Succeeds
      simp only [message.mentionsDeleteByID, message.call, hf]
      exact ⟨_, _, rfl⟩
  · unfold Succeeds
    simp only [message.mentionsDeleteByMessageID, message.call, hf]
    exact ⟨_, _, rfl⟩

/-! ## Reply counter: `Create` and `Delete` of a reply -/

theorem FindByID_id {mm : List Message} {id : Nat} {m : Message}
    (h : MessageSet.FindByID mm id = some m) : m.ID = id := by
  have := List.find?_some h
  simpa using this

theorem FindByID_map (f : Message → Message) (hf : ∀ m, (f m).ID = m.ID) (id : Nat) :
    ∀ mm : List Message,
      MessageSet.FindByID (mm.map f) id = (MessageSet.FindByID mm id).map f := by
  intro mm
  induction mm with
  | nil => rfl
  | cons m rest ih =>
    unfold MessageSet.FindByID at ih ⊢
    by_cases hm : (m.ID == id) = true
    · simp [List.find?, hf, hm]
    · simp [List.find?, hf, hm, ih]

theorem FindByID_append_fresh (mm : List Message) (m : Message)
    (hfresh : ∀ x ∈ mm, x.ID ≠ m.ID) : MessageSet.FindByID (mm ++ [m]) m.ID = some m := by
  unfold MessageSet.FindByID
  rw [List.find?_append]
  have : List.find? (fun x => x.ID == m.ID) mm = none := by
    simp
    exact hfresh
  simp [this]

theorem FindByID_append_old (mm : List Message) (m x : Message) (id : Nat)
    (h : MessageSet.FindByID mm id = some x) : MessageSet.FindByID (mm ++ [m]) id = some x := by
  unfold MessageSet.FindByID at h ⊢
  rw [List.find?_append, h]
  rfl

theorem FindByID_filter_ne (id did : Nat) (hne : id ≠ did) :
    ∀ mm : List Message,
      MessageSet.FindByID (mm.filter (fun x => x.ID != did)) id = MessageSet.FindByID mm id := by
  intro mm
  induction mm with
  | nil => rfl
  | cons m rest ih =>
    unfold MessageSet.FindByID at ih ⊢
    rw [List.filter_cons, List.find?_cons]
    by_cases hd : m.ID = did
    · have h1 : (m.ID != did) = false := by simp [hd]
      have h2 : (m.ID == id) = false := by
        simp
        omega
      simp only [h1, h2]
      exact ih
    · have h1 : (m.ID != did) = true := by simp [hd]
      simp only [h1, if_true, List.find?_cons]
      by_cases hm : m.ID = id
      · have h2 : (m.ID == id) = true := by simp [hm]
        simp only [h2]
      · have h2 : (m.ID == id) = false := by simp [hm]
        simp only [h2]
        exact ih

theorem count_zero_of_mention {l : List Call} (h : ∀ c ∈ l, c.isMention = true) (a : Call)
    (ha : a.isMention = false) : l.count a = 0 := by
  rw [List.count_eq_zero]
  intro hmem
  have := h a hmem
  rw [ha] at this
  cases this

theorem count_zero_of_noWrite {l : List Call} (h : NoWrite l) (a : Call)
    (ha : a.isWrite = true) : l.count a = 0 := by
  rw [List.count_eq_zero]
  intro hmem
  have := h a hmem
  rw [ha] at this
  cases this

theorem replyLoop_done (svc : message) (id fuel : Nat) (original : Option Message) (r : Repo) :
    svc.replyLoop id fuel 0 original r = Outcome.ok original r := by
  cases fuel <;> simp [message.replyLoop]

theorem pair_of_core {sent : List Message} {x y : Message}
    (h : sent.map Message.core = [x, y].map Message.core) :
    ∃ a b, sent = [a, b] ∧ a.core = x.core ∧ b.core = y.core := by
  cases sent with
  | nil => simp at h
  | cons a t =>
    cases t with
    | nil => simp at h
    | cons b t2 =>
      cases t2 with
      | nil =>
        simp at h
        exact ⟨a, b, rfl, h.1, h.2⟩
      | cons c t3 => simp at h

/-- `Create` of a reply to a top-level message, with working collaborators: it succeeds,
the stored message has the root's id and channel, the root's stored counter is bumped by
exactly one `IncReplyCount` call, and the root is broadcast with its counter plus one. -/
theorem Create_reply_spec (svc : message) (hf : ∀ c, svc.fault c = none) (inp root : Message)
    (r : Repo) (fuel : Nat)
    (hbody : TrimSpace inp.Message ≠ "") (hin : 0 < inp.ReplyTo)
    (hroot : MessageSet.FindByID r.messages inp.ReplyTo = some root) (htop : root.ReplyTo = 0)
    (hrep : svc.IsRepliable root.Type_ = true) (hch : root.ChannelID ≠ 0)
    (hn : root.Replies + 1 < 2 ^ svc.repliesBits) :
    ∃ msg r1 l,
      svc.Create (fuel + 1) (some inp) r = Outcome.ok msg r1 ∧
      msg.core = ({ svc.replyInput inp root with ID := r.nextID } : Message).core ∧
      r1.messages = r.messages.map (bumpReplies root.ID)
        ++ [{ svc.replyInput inp root with ID := r.nextID }] ∧
      r1.log = r.log ++ l ∧ l.count (Call.IncReplyCount root.ID) = 1 ∧
      ∃ ev, Call.evlMessage ev ∈ l ∧
        ev.core = ({ root with Replies := root.Replies + 1 } : Message).core := by
  have hid : root.ID = inp.ReplyTo := FindByID_id hroot
  have hloop : svc.replyLoop inp.ReplyTo (fuel + 1) inp.ReplyTo none (r.logged [Call.txBegin])
      = Outcome.ok (some root) (r.logged [Call.txBegin, Call.FindMessageByID inp.ReplyTo]) := by
    rw [message.replyLoop]
    simp only [gt_iff_lt, hin, if_true]
    rw [FindMessageByID_found svc inp.ReplyTo _ root (hf _) (by simpa [Repo.logged] using hroot)]
    simp [htop, replyLoop_done, Repo.logged]
  let inp0 : Message :=
    { inp with Message := TrimSpace inp.Message, UserID := svc.currentUserID }
  let msg0 : Message := { svc.replyInput inp root with ID := r.nextID }
  let orig1 : Message := { root with Replies := root.Replies + 1 }
  let rA : Repo := { r with messages := r.messages.map (bumpReplies root.ID),
                            log := r.log ++ [Call.txBegin, Call.FindMessageByID inp.ReplyTo,
                                             Call.IncReplyCount root.ID] }
  have h1 : svc.createReply (fuel + 1) inp0 (r.logged [Call.txBegin])
      = Outcome.ok (svc.replyInput inp root, [orig1]) rA := by
    have hmod : (root.Replies + 1) % 2 ^ svc.repliesBits = root.Replies + 1 := Nat.mod_eq_of_lt hn
    have hin0 : inp0.ReplyTo > 0 := hin
    unfold message.createReply
    rw [if_pos hin0]
    have hloop0 : svc.replyLoop inp0.ReplyTo (fuel + 1) inp0.ReplyTo none
        (r.logged [Call.txBegin]) = _ := hloop
    rw [Op.bind_of_ok _ _ _ _ _ hloop0]
    simp [inp0, Op.bind, hrep, message.IncReplyCount,
      message.call, hf, pure, hmod, Repo.logged, message.replyInput, orig1, rA, hid]
  let rB : Repo := { rA with messages := rA.messages ++ [msg0], nextID := r.nextID + 1,
                             log := rA.log ++ [Call.CreateMessage (svc.replyInput inp root)] }
  have h2 : svc.CreateMessage (svc.replyInput inp root) rA = Outcome.ok msg0 rB := by
    simp [message.CreateMessage, message.call, hf, rA, rB, msg0]
  obtain ⟨_, rC, hC⟩ := updateMentions_ok svc hf msg0.ID (svc.extractMentions msg0) rB
  have hstep : MentionStep rB rC := by
    have := updateMentions_steps svc msg0.ID (svc.extractMentions msg0) rB
    unfold Steps at this
    rw [hC] at this
    exact this
  obtain ⟨lM, hlM, hcM⟩ := hstep.log
  have h4 : svc.unreadsInc msg0.ChannelID msg0.ReplyTo msg0.UserID rC
      = Outcome.ok () (rC.logged [Call.unreadsInc msg0.ChannelID msg0.ReplyTo msg0.UserID]) := by
    simp [message.unreadsInc, call_read, hf]
  obtain ⟨sent, lS, hS, hnwS, hcoreS, hsentS⟩ := sendEvent_ok svc ([orig1] ++ [msg0])
    (rC.logged [Call.unreadsInc msg0.ChannelID msg0.ReplyTo msg0.UserID]) hf
  obtain ⟨a, b, hab, hacore, hbcore⟩ := pair_of_core hcoreS
  have hchan : ((svc.replyInput inp root).ChannelID == 0) = false := by
    simp [message.replyInput, hch]
  have hTx : svc.createTx (fuel + 1) inp0 (r.logged [Call.txBegin])
      = Outcome.ok b ((rC.logged [Call.unreadsInc msg0.ChannelID msg0.ReplyTo msg0.UserID]).logged lS) := by
    rw [message.createTx, Op.bind_of_ok _ _ _ _ _ h1]
    simp only [hchan, Bool.false_eq_true, ↓reduceIte]
    rw [Op.bind_of_ok _ _ _ _ _ h2,
      Op.bind_of_ok _ _ _ _ _ hC,
      Op.bind_of_ok _ _ _ _ _ h4, Op.bind_of_ok _ _ _ _ _ hS, hab]
    rfl
  refine ⟨b, ((rC.logged [Call.unreadsInc msg0.ChannelID msg0.ReplyTo msg0.UserID]).logged
      lS).logged [Call.txCommit],
    [Call.txBegin, Call.FindMessageByID inp.ReplyTo, Call.IncReplyCount root.ID,
      Call.CreateMessage (svc.replyInput inp root)] ++ lM ++
      [Call.unreadsInc msg0.ChannelID msg0.ReplyTo msg0.UserID] ++ lS ++ [Call.txCommit],
    ?_, hbcore, ?_, ?_, ?_, ⟨a, ?_, hacore⟩⟩
  · simp only [message.Create, validateBody_ok inp "create" hbody, Transaction]
    have : ({ r with log := r.log ++ [Call.txBegin] } : Repo) = r.logged [Call.txBegin] := rfl
    rw [this]
    have hTx2 : svc.createTx (fuel + 1) inp0 (r.logged [Call.txBegin]) = _ := hTx
    simp only [inp0] at hTx2
    rw [hTx2]
    rfl
  · simp [Repo.logged, hstep.messages, rB, rA, msg0]
  · simp [Repo.logged, hlM, rB, rA]
  · have c1 := count_zero_of_mention hcM (Call.IncReplyCount root.ID) rfl
    have c2 := count_zero_of_noWrite hnwS (Call.IncReplyCount root.ID) rfl
    simp [List.count_append, List.count_cons, c1, c2]
  · have : Call.evlMessage a ∈ lS := hsentS a (by simp [hab])
    simp [this]

theorem decrement_floor (m : Message) :
    (if m.Replies > 0 then { m with Replies := m.Replies - 1 } else m)
      = { m with Replies := m.Replies - 1 } := by
  split
  · rfl
  · have h0 : m.Replies = 0 := by omega
    cases m
    simp_all

/-- `Delete` of a reply, with working collaborators: it succeeds, the root's stored counter
is lowered by exactly one `DecReplyCount` call (not below zero), the deleted row is gone,
and the root is broadcast with its counter minus one (not below zero). -/
theorem Delete_reply_spec (svc : message) (hf : ∀ c, svc.fault c = none) (r : Repo) (did : Nat)
    (d root : Message)
    (hd : MessageSet.FindByID r.messages did = some d) (hrep : 0 < d.ReplyTo)
    (hroot : MessageSet.FindByID r.messages d.ReplyTo = some root) :
    ∃ r2 l,
      svc.Delete did r = Outcome.ok () r2 ∧
      r2.messages = (r.messages.map (dropReplies root.ID)).filter (fun x => x.ID != did) ∧
      r2.log = r.log ++ l ∧ l.count (Call.DecReplyCount root.ID) = 1 ∧
      ∃ ev, Call.evlMessage ev ∈ l ∧
        ev.core = ({ root with Replies := root.Replies - 1 } : Message).core := by
  let orig1 : Message := { root with Replies := root.Replies - 1 }
  let gone : Message := { d with DeletedAt := some svc.timeNow }
  let rA : Repo := { r with messages := r.messages.map (dropReplies root.ID),
                            log := r.log ++ [Call.txBegin, Call.FindMessageByID did,
                              Call.FindMessageByID d.ReplyTo, Call.DecReplyCount root.ID] }
  have h0 : svc.FindMessageByID did (r.logged [Call.txBegin])
      = Outcome.ok d (r.logged [Call.txBegin, Call.FindMessageByID did]) := by
    rw [FindMessageByID_found svc did _ d (hf _) (by simpa [Repo.logged] using hd)]
    simp [Repo.logged]
  have h1 : svc.deleteReply d (r.logged [Call.txBegin, Call.FindMessageByID did])
      = Outcome.ok [orig1] rA := by
    unfold message.deleteReply
    rw [if_pos hrep, Op.bind_of_ok _ _ _ _ _
      (FindMessageByID_found svc d.ReplyTo _ root (hf _) (by simpa [Repo.logged] using hroot))]
    simp only [decrement_floor]
    simp [Op.bind, message.DecReplyCount, message.call, hf, pure, Repo.logged, orig1, rA]
  let rB : Repo := { rA with messages := rA.messages.filter (fun x => x.ID != did),
                             log := rA.log ++ [Call.DeleteMessageByID did,
                               Call.unreadsDec d.ChannelID d.ReplyTo d.UserID] }
  obtain ⟨_, rC, hC⟩ := updateMentions_ok svc hf did [] rB
  have hstep : MentionStep rB rC := by
    have := updateMentions_steps svc did [] rB
    unfold Steps at this
    rw [hC] at this
    exact this
  obtain ⟨lM, hlM, hcM⟩ := hstep.log
  obtain ⟨sent, lS, hS, hnwS, hcoreS, hsentS⟩ := sendEvent_ok svc ([orig1] ++ [gone]) rC hf
  obtain ⟨a, b, hab, hacore, hbcore⟩ := pair_of_core hcoreS
  have hTx : svc.deleteTx did (r.logged [Call.txBegin]) = Outcome.ok () (rC.logged lS) := by
    have h2a : ∃ rM, svc.DeleteMessageByID did rA = Outcome.ok () rM ∧
        svc.unreadsDec d.ChannelID d.ReplyTo d.UserID rM = Outcome.ok () rB := by
      refine ⟨{ rA with messages := rA.messages.filter (fun x => x.ID != did),
                        log := rA.log ++ [Call.DeleteMessageByID did] }, ?_, ?_⟩
      · simp [message.DeleteMessageByID, message.call, hf, rA]
      · simp [message.unreadsDec, message.call, hf, rA, rB]
    obtain ⟨rM, hM1, hM2⟩ := h2a
    rw [message.deleteTx, Op.bind_of_ok _ _ _ _ _ h0, Op.bind_of_ok _ _ _ _ _ h1,
      Op.bind_of_ok _ _ _ _ _ hM1, Op.bind_of_ok _ _ _ _ _ hM2, Op.bind_of_ok _ _ _ _ _ hC,
      Op.bind_of_ok _ _ _ _ _ hS]
    rfl
  refine ⟨(rC.logged lS).logged [Call.txCommit],
    [Call.txBegin, Call.FindMessageByID did, Call.FindMessageByID d.ReplyTo,
      Call.DecReplyCount root.ID, Call.DeleteMessageByID did,
      Call.unreadsDec d.ChannelID d.ReplyTo d.UserID] ++ lM ++ lS ++ [Call.txCommit],
    ?_, ?_, ?_, ?_, ⟨a, ?_, hacore⟩⟩
  · simp only [message.Delete, Transaction]
    have : ({ r with log := r.log ++ [Call.txBegin] } : Repo) = r.logged [Call.txBegin] := rfl
    rw [this, hTx]
    rfl
  · simp [Repo.logged, hstep.messages, rB, rA]
  · simp [Repo.logged, hlM, rB, rA]
  · have c1 := count_zero_of_mention hcM (Call.DecReplyCount root.ID) rfl
    have c2 := count_zero_of_noWrite hnwS (Call.DecReplyCount root.ID) rfl
    simp [List.count_append, List.count_cons, c1, c2]
  · have : Call.evlMessage a ∈ lS := hsentS a (by simp [hab])
    simp [this]

theorem bumpReplies_ID (id : Nat) (x : Message) : (bumpReplies id x).ID = x.ID := by
  unfold bumpReplies
  split <;> rfl

theorem dropReplies_ID (id : Nat) (x : Message) : (dropReplies id x).ID = x.ID := by
  unfold dropReplies
  split <;> rfl

theorem FindByID_filter_self (did : Nat) (mm : List Message) :
    MessageSet.FindByID (mm.filter (fun x => x.ID != did)) did = none := by
  unfold MessageSet.FindByID
  rw [List.find?_eq_none]
  intro x hx
  have := (List.mem_filter.1 hx).2
  simpa using this

/-! ## C6: the reply counter -/

/-- C6: with working collaborators.  (1) For a top-level repliable message `root` with
`Replies = n` (n + 1 within the counter's width), `Create` of a reply succeeds with exactly
one `IncReplyCount` on the root's id, the stored root then has `Replies = n + 1` and the
root is broadcast with `Replies = n + 1`; `Delete` of that reply then succeeds with exactly
one `DecReplyCount` on the root's id, the stored root has `Replies = n` again and the reply
is gone.  (2) `Delete` of a reply whose root has `Replies = 0` leaves the stored root and
its broadcast copy at 0. -/
theorem reply_counter_roundtrip (svc : message) (hf : ∀ c, svc.fault c = none) :
    (∀ (inp root : Message) (r : Repo) (fuel n : Nat),
      TrimSpace inp.Message ≠ "" → 0 < inp.ReplyTo →
      MessageSet.FindByID r.messages inp.ReplyTo = some root → root.ReplyTo = 0 →
      svc.IsRepliable root.Type_ = true → root.ChannelID ≠ 0 →
      root.Replies = n → n + 1 < 2 ^ svc.repliesBits →
      (∀ x ∈ r.messages, x.ID < r.nextID) →
      ∃ msg r1 l1 r2 l2,
        svc.Create (fuel + 1) (some inp) r = Outcome.ok msg r1 ∧ r1.log = r.log ++ l1 ∧
        (MessageSet.FindByID r1.messages root.ID).map (fun m => m.Replies) = some (n + 1) ∧
        l1.count (Call.IncReplyCount root.ID) = 1 ∧
        (∃ ev, Call.evlMessage ev ∈ l1 ∧ ev.ID = root.ID ∧ ev.Replies = n + 1) ∧
        (MessageSet.FindByID r1.messages msg.ID).map (fun m => (m.ReplyTo, m.ChannelID))
          = some (root.ID, root.ChannelID) ∧
        svc.Delete msg.ID r1 = Outcome.ok () r2 ∧ r2.log = r1.log ++ l2 ∧
        (MessageSet.FindByID r2.messages root.ID).map (fun m => m.Replies) = some n ∧
        l2.count (Call.DecReplyCount root.ID) = 1 ∧
        MessageSet.FindByID r2.messages msg.ID = none) ∧
    (∀ (r : Repo) (did : Nat) (d root : Message),
      MessageSet.FindByID r.messages did = some d → 0 < d.ReplyTo →
      MessageSet.FindByID r.messages d.ReplyTo = some root → d.ReplyTo ≠ did →
      root.Replies = 0 →
      ∃ r2 l2,
        svc.Delete did r = Outcome.ok () r2 ∧ r2.log = r.log ++ l2 ∧
        (MessageSet.FindByID r2.messages root.ID).map (fun m => m.Replies) = some 0 ∧
        (∃ ev, Call.evlMessage ev ∈ l2 ∧ ev.ID = root.ID ∧ ev.Replies = 0)) := by
  constructor
  · intro inp root r fuel n hbody hin hroot htop hrep hch hn hw hfresh
    subst hn
    have hid : root.ID = inp.ReplyTo := FindByID_id hroot
    obtain ⟨msg, r1, l1, hrun, hmcore, hmsgs, hlog1, hcount1, ev, hev, hevcore⟩ :=
      Create_reply_spec svc hf inp root r fuel hbody hin hroot htop hrep hch hw
    have hmsgID : msg.ID = r.nextID := by
      have := congrArg (fun m : Message => m.ID) hmcore
      simpa [Message.core] using this
    have hrootmem : root ∈ r.messages := List.mem_of_find?_eq_some hroot
    have hrootlt : root.ID < r.nextID := hfresh root hrootmem
    have hbump : bumpReplies root.ID root = { root with Replies := root.Replies + 1 } := by
      simp [bumpReplies]
    have hfindroot1 : MessageSet.FindByID r1.messages root.ID
        = some { root with Replies := root.Replies + 1 } := by
      rw [hmsgs]
      apply FindByID_append_old
      rw [FindByID_map _ (bumpReplies_ID root.ID), hid, hroot, ← hid]
      simp [hbump]
    have hfindmsg1 : MessageSet.FindByID r1.messages msg.ID
        = some { svc.replyInput inp root with ID := r.nextID } := by
      rw [hmsgs, hmsgID]
      have := FindByID_append_fresh (r.messages.map (bumpReplies root.ID))
        { svc.replyInput inp root with ID := r.nextID } (by
          intro x hx
          obtain ⟨y, hy, hxy⟩ := List.mem_map.1 hx
          have := hfresh y hy
          rw [← hxy, bumpReplies_ID]
          simp
          omega)
      simpa using this
    obtain ⟨r2, l2, hrun2, hmsgs2, hlog2, hcount2, _⟩ :=
      Delete_reply_spec svc hf r1 msg.ID { svc.replyInput inp root with ID := r.nextID }
        { root with Replies := root.Replies + 1 } hfindmsg1
        (by simp [message.replyInput, hid, hin])
        (by simpa [message.replyInput] using hfindroot1)
    refine ⟨msg, r1, l1, r2, l2, hrun, hlog1, ?_, hcount1, ⟨ev, hev, ?_, ?_⟩, ?_, hrun2, hlog2,
      ?_, hcount2, ?_⟩
    · simp [hfindroot1]
    · have := congrArg (fun m : Message => m.ID) hevcore
      simpa [Message.core] using this
    · have := congrArg (fun m : Message => m.Replies) hevcore
      simpa [Message.core] using this
    · simp [hfindmsg1, message.replyInput]
    · rw [hmsgs2, FindByID_filter_ne root.ID msg.ID (by omega),
        FindByID_map _ (dropReplies_ID _)]
      simp only [] at hfindroot1 ⊢
      rw [hfindroot1]
      simp [dropReplies]
    · rw [hmsgs2]
      exact FindByID_filter_self _ _
  · intro r did d root hd hrep hroot hne h0
    have hid : root.ID = d.ReplyTo := FindByID_id hroot
    obtain ⟨r2, l2, hrun2, hmsgs2, hlog2, _, ev, hev, hevcore⟩ :=
      Delete_reply_spec svc hf r did d root hd hrep hroot
    refine ⟨r2, l2, hrun2, hlog2, ?_, ⟨ev, hev, ?_, ?_⟩⟩
    · rw [hmsgs2, FindByID_filter_ne root.ID did (by omega),
        FindByID_map _ (dropReplies_ID _), hid, hroot]
      simp [dropReplies, h0, hid]
    · have := congrArg (fun m : Message => m.ID) hevcore
      simpa [Message.core] using this
    · have := congrArg (fun m : Message => m.Replies) hevcore
      simpa [Message.core, h0] using this

/-- Witness for C6: user 1 replies to message 100 (no replies so far) and deletes the
reply; and message 101, a reply to message 100 whose counter is 0, is deleted. -/
theorem reply_counter_roundtrip_witness :
    (∃ msg r1 l1 r2 l2,
        svc1.Create (0 + 1) (some { ReplyTo := 100, Message := "re" }) repo0
          = Outcome.ok msg r1 ∧ r1.log = repo0.log ++ l1 ∧
        (MessageSet.FindByID r1.messages m100.ID).map (fun m => m.Replies) = some (0 + 1) ∧
        l1.count (Call.IncReplyCount m100.ID) = 1 ∧
        (∃ ev, Call.evlMessage ev ∈ l1 ∧ ev.ID = m100.ID ∧ ev.Replies = 0 + 1) ∧
        (MessageSet.FindByID r1.messages msg.ID).map (fun m => (m.ReplyTo, m.ChannelID))
          = some (m100.ID, m100.ChannelID) ∧
        svc1.Delete msg.ID r1 = Outcome.ok () r2 ∧ r2.log = r1.log ++ l2 ∧
        (MessageSet.FindByID r2.messages m100.ID).map (fun m => m.Replies) = some 0 ∧
        l2.count (Call.DecReplyCount m100.ID) = 1 ∧
        MessageSet.FindByID r2.messages msg.ID = none) ∧
    (∃ r2 l2,
        svc1.Delete 101 repo0 = Outcome.ok () r2 ∧ r2.log = repo0.log ++ l2 ∧
        (MessageSet.FindByID r2.messages m100.ID).map (fun m => m.Replies) = some 0 ∧
        (∃ ev, Call.evlMessage ev ∈ l2 ∧ ev.ID = m100.ID ∧ ev.Replies = 0)) :=
  ⟨(reply_counter_roundtrip svc1 (fun _ => rfl)).1 { ReplyTo := 100, Message := "re" } m100
      repo0 0 0 (by decide) (by decide) (by decide) rfl rfl (by decide) rfl (by decide)
      (by decide),
   (reply_counter_roundtrip svc1 (fun _ => rfl)).2 repo0 101 m101 m100 (by decide) (by decide)
      (by decide) (by decide) rfl⟩

/-! ## Order of writes and emissions -/

theorem LogsNoEmit_pure {α : Type} (a : α) : LogsNoEmit (pure a : Op α) := by
  intro r
  constructor
  · intro b r1 h
    simp [Pure.pure] at h
    exact ⟨[], by simp [h.2], NoEmit_nil⟩
  · intro e r1 h
    simp [Pure.pure] at h

theorem LogsNoEmit_fail {α : Type} (e : Err) : LogsNoEmit (Op.fail e : Op α) := by
  intro r
  constructor
  · intro b r1 h
    simp [Op.fail] at h
  · intro e1 r1 h
    simp [Op.fail] at h
    exact ⟨[], by simp [h.2], NoEmit_nil⟩

theorem LogsNoEmit_bind {α β : Type} {x : Op α} {f : α → Op β} (hx : LogsNoEmit x)
    (hf : ∀ a, LogsNoEmit (f a)) : LogsNoEmit (Op.bind x f) := by
  intro r
  cases hxr : x r with
  | ok a r1 =>
    obtain ⟨l1, hl1, hn1⟩ := (hx r).1 a r1 hxr
    constructor
    · intro b r2 h
      rw [Op.bind_of_ok _ _ _ _ _ hxr] at h
      obtain ⟨l2, hl2, hn2⟩ := (hf a r1).1 b r2 h
      exact ⟨l1 ++ l2, by rw [hl2, hl1, List.append_assoc], NoEmit_append hn1 hn2⟩
    · intro e r2 h
      rw [Op.bind_of_ok _ _ _ _ _ hxr] at h
      obtain ⟨l2, hl2, hn2⟩ := (hf a r1).2 e r2 h
      exact ⟨l1 ++ l2, by rw [hl2, hl1, List.append_assoc], NoEmit_append hn1 hn2⟩
  | fail e r1 =>
    constructor
    · intro b r2 h
      rw [Op.bind_of_fail _ _ _ _ _ hxr] at h
      cases h
    · intro e2 r2 h
      rw [Op.bind_of_fail _ _ _ _ _ hxr] at h
      cases h
      exact (hx r).2 e r1 hxr
  | diverge =>
    constructor
    · intro b r2 h
      rw [Op.bind_of_diverge _ _ _ hxr] at h
      cases h
    · intro e2 r2 h
      rw [Op.bind_of_diverge _ _ _ hxr] at h
      cases h

theorem LogsNoEmit_wrap {α : Type} {x : Op α} (msg : String) (hx : LogsNoEmit x) :
    LogsNoEmit (Op.wrap x msg) := by
  intro r
  cases hxr : x r with
  | ok a r1 =>
    constructor
    · intro b r2 h
      simp [Op.wrap, hxr] at h
      obtain ⟨h1, h2⟩ := h
      subst h1 h2
      exact (hx r).1 a r1 hxr
    · intro e r2 h
      simp [Op.wrap, hxr] at h
  | fail e r1 =>
    constructor
    · intro b r2 h
      simp [Op.wrap, hxr] at h
    · intro e2 r2 h
      simp [Op.wrap, hxr] at h
      obtain ⟨_, h2⟩ := h
      subst h2
      exact (hx r).2 e r1 hxr
  | diverge =>
    constructor
    · intro b r2 h
      simp [Op.wrap, hxr] at h
    · intro e2 r2 h
      simp [Op.wrap, hxr] at h

/-- A collaborator call other than an emission, whose effect leaves the record of calls
alone, adds that one call. -/
theorem LogsNoEmit_call {α : Type} (svc : message) (c : Call)
    (eff : Repo → Except Err (α × Repo)) (hc : c.isEmit = false)
    (heff : ∀ r a r2, eff r = Except.ok (a, r2) → r2.log = r.log) :
    LogsNoEmit (svc.call c eff) := by
  have hsingle : NoEmit [c] := by
    intro d hd
    simp at hd
    subst hd
    exact hc
  intro r
  constructor
  · intro a r1 h
    unfold message.call at h
    cases hfc : svc.fault c with
    | some e => simp [hfc] at h
    | none =>
      simp only [hfc] at h
      cases he : eff { r with log := r.log ++ [c] } with
      | error e => simp [he] at h
      | ok p =>
        obtain ⟨a2, r2⟩ := p
        simp [he] at h
        obtain ⟨_, h2⟩ := h
        subst h2
        exact ⟨[c], by rw [heff _ _ _ he], hsingle⟩
  · intro e r1 h
    unfold message.call at h
    cases hfc : svc.fault c with
    | some e0 =>
      simp [hfc] at h
      exact ⟨[c], by simp [← h.2], hsingle⟩
    | none =>
      simp only [hfc] at h
      cases he : eff { r with log := r.log ++ [c] } with
      | error e0 =>
        simp [he] at h
        exact ⟨[c], by simp [← h.2], hsingle⟩
      | ok p =>
        obtain ⟨a2, r2⟩ := p
        simp [he] at h

theorem EmitLast_of_noEmit {α : Type} {T : Err → List Call → Prop} (hT : ∀ e, T e [])
    {x : Op α} (hx : LogsNoEmit x) : EmitLast T x := by
  intro r
  constructor
  · intro a r1 h
    obtain ⟨l, hl, hn⟩ := (hx r).1 a r1 h
    exact ⟨l, [], by simpa using hl, hn, NoWrite_nil⟩
  · intro e r1 h
    obtain ⟨l, hl, hn⟩ := (hx r).2 e r1 h
    exact ⟨l, [], by simpa using hl, hn, NoWrite_nil, hT e⟩

theorem EmitLast_bind {α β : Type} {T : Err → List Call → Prop} (hT : ∀ e, T e [])
    {x : Op α} {f : α → Op β} (hx : LogsNoEmit x) (hf : ∀ a, EmitLast T (f a)) :
    EmitLast T (Op.bind x f) := by
  intro r
  cases hxr : x r with
  | ok a r1 =>
    obtain ⟨l0, hl0, hn0⟩ := (hx r).1 a r1 hxr
    constructor
    · intro b r2 h
      rw [Op.bind_of_ok _ _ _ _ _ hxr] at h
      obtain ⟨l1, l2, hl, hn1, hw2⟩ := (hf a r1).1 b r2 h
      exact ⟨l0 ++ l1, l2, by rw [hl, hl0]; simp, NoEmit_append hn0 hn1, hw2⟩
    · intro e r2 h
      rw [Op.bind_of_ok _ _ _ _ _ hxr] at h
      obtain ⟨l1, l2, hl, hn1, hw2, ht⟩ := (hf a r1).2 e r2 h
      exact ⟨l0 ++ l1, l2, by rw [hl, hl0]; simp, NoEmit_append hn0 hn1, hw2, ht⟩
  | fail e r1 =>
    constructor
    · intro b r2 h
      rw [Op.bind_of_fail _ _ _ _ _ hxr] at h
      cases h
    · intro e2 r2 h
      rw [Op.bind_of_fail _ _ _ _ _ hxr] at h
      cases h
      obtain ⟨l, hl, hn⟩ := (hx r).2 e r1 hxr
      exact ⟨l, [], by simpa using hl, hn, NoWrite_nil, hT e⟩
  | diverge =>
    constructor
    · intro b r2 h
      rw [Op.bind_of_diverge _ _ _ hxr] at h
      cases h
    · intro e2 r2 h
      rw [Op.bind_of_diverge _ _ _ hxr] at h
      cases h

theorem FindMessageByID_noEmit (svc : message) (id : Nat) :
    LogsNoEmit (svc.FindMessageByID id) := by
  refine LogsNoEmit_call svc _ _ rfl ?_
  intro r a r2 h
  split at h
  · simp at h
    rw [h.2]
  · simp at h

theorem CreateMessage_noEmit (svc : message) (m : Message) :
    LogsNoEmit (svc.CreateMessage m) := by
  refine LogsNoEmit_call svc _ _ rfl ?_
  intro r a r2 h
  simp at h
  rw [← h.2]

theorem UpdateMessage_noEmit (svc : message) (m : Message) :
    LogsNoEmit (svc.UpdateMessage m) := by
  refine LogsNoEmit_call svc _ _ rfl ?_
  intro r a r2 h
  simp at h
  rw [← h.2]

theorem DeleteMessageByID_noEmit (svc : message) (id : Nat) :
    LogsNoEmit (svc.DeleteMessageByID id) := by
  refine LogsNoEmit_call svc _ _ rfl ?_
  intro r a r2 h
  simp at h
  rw [← h]

theorem IncReplyCount_noEmit (svc : message) (id : Nat) :
    LogsNoEmit (svc.IncReplyCount id) := by
  refine LogsNoEmit_call svc _ _ rfl ?_
  intro r a r2 h
  simp at h
  rw [← h]

theorem DecReplyCount_noEmit (svc : message) (id : Nat) :
    LogsNoEmit (svc.DecReplyCount id) := by
  refine LogsNoEmit_call svc _ _ rfl ?_
  intro r a r2 h
  simp at h
  rw [← h]

theorem unreadsInc_noEmit (svc : message) (c t u : Nat) :
    LogsNoEmit (svc.unreadsInc c t u) := by
  refine LogsNoEmit_call svc _ _ rfl ?_
  intro r a r2 h
  simp at h
  rw [← h]

theorem unreadsDec_noEmit (svc : message) (c t u : Nat) :
    LogsNoEmit (svc.unreadsDec c t u) := by
  refine LogsNoEmit_call svc _ _ rfl ?_
  intro r a r2 h
  simp at h
  rw [← h]

theorem mflagCreate_noEmit (svc : message) (f : MessageFlag) :
    LogsNoEmit (svc.mflagCreate f) := by
  refine LogsNoEmit_call svc _ _ rfl ?_
  intro r a r2 h
  simp at h
  rw [← h.2]

theorem mflagDeleteByID_noEmit (svc : message) (id : Nat) :
    LogsNoEmit (svc.mflagDeleteByID id) := by
  refine LogsNoEmit_call svc _ _ rfl ?_
  intro r a r2 h
  simp at h
  rw [← h]

theorem mflagFindByFlag_noEmit (svc : message) (messageID ownerID : Nat) (flag : String) :
    LogsNoEmit (svc.mflagFindByFlag messageID ownerID flag) := by
  have hsingle : NoEmit [Call.mflagFindByFlag messageID ownerID flag] := by
    intro d hd
    simp at hd
    subst hd
    rfl
  intro r
  constructor
  · intro a r1 h
    refine ⟨[Call.mflagFindByFlag messageID ownerID flag], ?_, hsingle⟩
    unfold message.mflagFindByFlag at h
    cases hfc : svc.fault (Call.mflagFindByFlag messageID ownerID flag) with
    | some e =>
      simp [hfc] at h
      rw [← h.2]
    | none =>
      simp only [hfc] at h
      split at h <;>
      · simp at h
        rw [← h.2]
  · intro e r1 h
    unfold message.mflagFindByFlag at h
    cases hfc : svc.fault (Call.mflagFindByFlag messageID ownerID flag) with
    | some e => simp [hfc] at h
    | none =>
      simp only [hfc] at h
      split at h <;> simp at h

theorem updateMentions_noEmit (svc : message) (messageID : Nat) (mm : List Mention) :
    LogsNoEmit (svc.updateMentions messageID mm) := by
  have key : ∀ r r1, MentionStep r r1 → ∃ l, r1.log = r.log ++ l ∧ NoEmit l := by
    intro r r1 hs
    obtain ⟨l, hl, hc⟩ := hs.log
    refine ⟨l, hl, ?_⟩
    intro c hmem
    have := hc c hmem
    cases c <;> simp [Call.isMention] at this <;> rfl
  intro r
  have hs := updateMentions_steps svc messageID mm r
  unfold Steps at hs
  constructor
  · intro a r1 h
    rw [h] at hs
    exact key r r1 hs
  · intro e r1 h
    rw [h] at hs
    exact key r r1 hs

theorem replyLoop_noEmit (svc : message) (id : Nat) :
    ∀ (fuel replyTo : Nat) (original : Option Message),
      LogsNoEmit (svc.replyLoop id fuel replyTo original) := by
  intro fuel
  induction fuel with
  | zero =>
    intro replyTo original r
    constructor
    · intro a r1 h
      rw [message.replyLoop] at h
      split at h
      · cases h
      · simp at h
        exact ⟨[], by simp [h.2], NoEmit_nil⟩
    · intro e r1 h
      rw [message.replyLoop] at h
      split at h <;> cases h
  | succ n ih =>
    intro replyTo original
    by_cases hpos : replyTo > 0
    · have heq : svc.replyLoop id (n + 1) replyTo original
          = Op.bind (svc.FindMessageByID id) (fun m => svc.replyLoop id n m.ReplyTo (some m)) := by
        funext r
        rw [message.replyLoop]
        simp only [hpos, if_true, Op.bind]
        cases svc.FindMessageByID id r <;> rfl
      rw [heq]
      exact LogsNoEmit_bind (FindMessageByID_noEmit svc id) (fun m => ih _ _)
    · have heq : svc.replyLoop id (n + 1) replyTo original = (pure original : Op _) := by
        funext r
        rw [message.replyLoop]
        simp only [hpos, if_false]
        rfl
      rw [heq]
      exact LogsNoEmit_pure _

theorem createReply_noEmit (svc : message) (fuel : Nat) (inp : Message) :
    LogsNoEmit (svc.createReply fuel inp) := by
  unfold message.createReply
  split
  · refine LogsNoEmit_bind (replyLoop_noEmit svc _ _ _ _) ?_
    intro found
    cases found with
    | none => exact LogsNoEmit_fail _
    | some original =>
      simp only []
      split
      · exact LogsNoEmit_fail _
      · exact LogsNoEmit_bind (IncReplyCount_noEmit svc _) (fun _ => LogsNoEmit_pure _)
  · exact LogsNoEmit_pure _

theorem deleteReply_noEmit (svc : message) (d : Message) :
    LogsNoEmit (svc.deleteReply d) := by
  unfold message.deleteReply
  split
  · exact LogsNoEmit_bind (FindMessageByID_noEmit svc _)
      (fun _ => LogsNoEmit_bind (DecReplyCount_noEmit svc _) (fun _ => LogsNoEmit_pure _))
  · exact LogsNoEmit_pure _

theorem emissionFailed_nil (svc : message) (e : Err) : svc.emissionFailed e [] :=
  Or.inl NoEmit_nil

/-- The last step of the message closures: `sendEvent`, then the value. -/
theorem sendEvent_emitLast {β : Type} (svc : message) (mm : List Message)
    (g : List Message → β) :
    EmitLast svc.emissionFailed (Op.bind (svc.sendEvent mm) (fun sent => pure (g sent))) := by
  intro r
  rcases sendEvent_spec svc mm r with ⟨mm1, l, hrun, hnw, _, _⟩ | ⟨e, l, hrun, hnw, ht⟩
  · constructor
    · intro a r1 h
      rw [Op.bind_of_ok _ _ _ _ _ hrun] at h
      simp [Pure.pure] at h
      exact ⟨[], l, by simp [← h.2, Repo.logged], NoEmit_nil, hnw⟩
    · intro e r1 h
      rw [Op.bind_of_ok _ _ _ _ _ hrun] at h
      simp [Pure.pure] at h
  · constructor
    · intro a r1 h
      rw [Op.bind_of_fail _ _ _ _ _ hrun] at h
      cases h
    · intro e2 r1 h
      rw [Op.bind_of_fail _ _ _ _ _ hrun] at h
      cases h
      exact ⟨[], l, by simp [Repo.logged], NoEmit_nil, hnw, ht⟩

/-- The last step of the flag closure: the flag event is handed over and the result of
the hand-over is dropped, so this step never fails. -/
theorem sendFlagEvent_emitLast (svc : message) (T : Err → List Call → Prop) (f : MessageFlag) :
    EmitLast T (Op.bind (Op.attempt (svc.sendFlagEvent [f])) (fun _ => pure ())) := by
  have hw : NoWrite [Call.evlMessageFlag f] := by
    intro d hd
    simp at hd
    subst hd
    rfl
  intro r
  cases hfc : svc.fault (Call.evlMessageFlag f) with
  | some e0 =>
    have hrun : Op.bind (Op.attempt (svc.sendFlagEvent [f])) (fun _ => (pure () : Op Unit)) r
        = Outcome.ok () (r.logged [Call.evlMessageFlag f]) := by
      simp [Op.bind, Op.attempt, message.sendFlagEvent, walk, message.evlMessageFlag, call_read,
        hfc, Pure.pure]
    constructor
    · intro a r1 h
      rw [hrun] at h
      simp at h
      exact ⟨[], _, by simp [← h, Repo.logged], NoEmit_nil, hw⟩
    · intro e r1 h
      rw [hrun] at h
      cases h
  | none =>
    have hrun : Op.bind (Op.attempt (svc.sendFlagEvent [f])) (fun _ => (pure () : Op Unit)) r
        = Outcome.ok () (r.logged [Call.evlMessageFlag f]) := by
      simp [Op.bind, Op.attempt, message.sendFlagEvent, walk, message.evlMessageFlag, call_read,
        hfc, Pure.pure]
    constructor
    · intro a r1 h
      rw [hrun] at h
      simp at h
      exact ⟨[], _, by simp [← h, Repo.logged], NoEmit_nil, hw⟩
    · intro e r1 h
      rw [hrun] at h
      cases h

theorem createTx_emitLast (svc : message) (fuel : Nat) (inp : Message) :
    EmitLast svc.emissionFailed (svc.createTx fuel inp) := by
  unfold message.createTx
  refine EmitLast_bind (emissionFailed_nil svc) (createReply_noEmit svc fuel inp) ?_
  intro p
  split
  · exact EmitLast_of_noEmit (emissionFailed_nil svc) (LogsNoEmit_fail _)
  · refine EmitLast_bind (emissionFailed_nil svc) (CreateMessage_noEmit svc _) ?_
    intro msg
    refine EmitLast_bind (emissionFailed_nil svc) (updateMentions_noEmit svc _ _) ?_
    intro _
    refine EmitLast_bind (emissionFailed_nil svc) (unreadsInc_noEmit svc _ _ _) ?_
    intro _
    exact sendEvent_emitLast svc _ _

theorem updateTx_emitLast (svc : message) (inp : Message) :
    EmitLast svc.emissionFailed (svc.updateTx inp) := by
  unfold message.updateTx
  refine EmitLast_bind (emissionFailed_nil svc)
    (LogsNoEmit_wrap _ (FindMessageByID_noEmit svc _)) ?_
  intro msg
  split
  · exact EmitLast_of_noEmit (emissionFailed_nil svc) (LogsNoEmit_pure _)
  · split
    · exact EmitLast_of_noEmit (emissionFailed_nil svc) (LogsNoEmit_fail _)
    · refine EmitLast_bind (emissionFailed_nil svc) (UpdateMessage_noEmit svc _) ?_
      intro msg1
      refine EmitLast_bind (emissionFailed_nil svc) (updateMentions_noEmit svc _ _) ?_
      intro _
      exact sendEvent_emitLast svc _ _

theorem deleteTx_emitLast (svc : message) (ID : Nat) :
    EmitLast svc.emissionFailed (svc.deleteTx ID) := by
  unfold message.deleteTx
  refine EmitLast_bind (emissionFailed_nil svc) (FindMessageByID_noEmit svc _) ?_
  intro d
  refine EmitLast_bind (emissionFailed_nil svc) (deleteReply_noEmit svc d) ?_
  intro bq
  refine EmitLast_bind (emissionFailed_nil svc) (DeleteMessageByID_noEmit svc _) ?_
  intro _
  refine EmitLast_bind (emissionFailed_nil svc) (unreadsDec_noEmit svc _ _ _) ?_
  intro _
  refine EmitLast_bind (emissionFailed_nil svc) (updateMentions_noEmit svc _ _) ?_
  intro _
  exact sendEvent_emitLast svc _ _

theorem flagTx_emitLast (svc : message) (messageID : Nat) (flag : String) (remove : Bool) :
    EmitLast (fun _ l => NoEmit l) (svc.flagTx messageID flag remove) := by
  have hT : ∀ e : Err, (fun (_ : Err) (l : List Call) => NoEmit l) e [] := fun _ => NoEmit_nil
  unfold message.flagTx
  refine EmitLast_bind hT (mflagFindByFlag_noEmit svc _ _ _) ?_
  intro found
  simp only []
  split
  · exact EmitLast_of_noEmit hT (LogsNoEmit_pure _)
  · split
    · exact EmitLast_of_noEmit hT (LogsNoEmit_pure _)
    · split
      · exact EmitLast_of_noEmit hT (LogsNoEmit_fail _)
      · refine EmitLast_bind hT (FindMessageByID_noEmit svc _) ?_
        intro msg
        split
        · refine EmitLast_bind hT (mflagDeleteByID_noEmit svc _) ?_
          intro _
          exact sendFlagEvent_emitLast svc _ _
        · refine EmitLast_bind hT (mflagCreate_noEmit svc _) ?_
          intro f1
          exact sendFlagEvent_emitLast svc _ _

theorem emitsAfterWrites_of_noWrite : ∀ l : List Call, NoWrite l → emitsAfterWrites l = true := by
  intro l
  induction l with
  | nil =>
    intro _
    rfl
  | cons c cs ih =>
    intro h
    have hcs : NoWrite cs := fun d hd => h d (List.mem_cons_of_mem _ hd)
    have hall : cs.all (fun d => !d.isWrite) = true := by
      rw [List.all_eq_true]
      intro d hd
      simp [hcs d hd]
    simp [emitsAfterWrites, hall, ih hcs]

theorem emitsAfterWrites_split : ∀ l1 l2 : List Call, NoEmit l1 → NoWrite l2 →
    emitsAfterWrites (l1 ++ l2) = true := by
  intro l1
  induction l1 with
  | nil =>
    intro l2 _ h2
    exact emitsAfterWrites_of_noWrite l2 h2
  | cons c cs ih =>
    intro l2 h1 h2
    have hc : c.isEmit = false := h1 c (List.mem_cons_self _ _)
    have hcs : NoEmit cs := fun d hd => h1 d (List.mem_cons_of_mem _ hd)
    simp [emitsAfterWrites, hc, ih l2 hcs h2]

/-- A closure whose emissions come last, run inside `Transaction`. -/
theorem Transaction_emitsInsideTx {α : Type} (svc : message) (T : Err → List Call → Prop)
    (hT : ∀ e l, T e l → NoEmit l ∨ ∃ pre m e0, l = pre ++ [Call.evlMessage m] ∧
      svc.fault (Call.evlMessage m) = some e0)
    (fn : Op α) (hfn : EmitLast T fn) : svc.EmitsInsideTx (Transaction fn) := by
  have hb : NoEmit [Call.txBegin] := by
    intro d hd
    simp at hd
    subst hd
    rfl
  intro r
  cases hrun : fn { r with log := r.log ++ [Call.txBegin] } with
  | ok a r1 =>
    obtain ⟨l1, l2, hl, hn1, hw2⟩ := (hfn _).1 a r1 hrun
    constructor
    · intro b r2 h
      simp [Transaction, hrun] at h
      obtain ⟨_, h2⟩ := h
      subst h2
      refine ⟨([Call.txBegin] ++ l1) ++ (l2 ++ [Call.txCommit]), ?_, ?_, ?_⟩
      · simp [hl]
      · refine emitsAfterWrites_split _ _ (NoEmit_append hb hn1) (NoWrite_append hw2 ?_)
        intro d hd
        simp at hd
        subst hd
        rfl
      · have hshape : ([Call.txBegin] ++ l1) ++ (l2 ++ [Call.txCommit])
            = (([Call.txBegin] ++ l1) ++ l2) ++ [Call.txCommit] := by simp
        rw [hshape, List.getLast?_concat]
    · intro e r2 h
      simp [Transaction, hrun] at h
  | fail e r1 =>
    obtain ⟨l1, l2, hl, hn1, hw2, ht⟩ := (hfn _).2 e r1 hrun
    constructor
    · intro b r2 h
      simp [Transaction, hrun] at h
    · intro e2 r2 h
      simp [Transaction, hrun] at h
      obtain ⟨_, h2⟩ := h
      subst h2
      have hr : NoWrite [Call.txRollback] := by
        intro d hd
        simp at hd
        subst hd
        rfl
      have hre : NoEmit [Call.txRollback] := by
        intro d hd
        simp at hd
        subst hd
        rfl
      refine ⟨([Call.txBegin] ++ l1) ++ (l2 ++ [Call.txRollback]), ?_, ?_, ?_⟩
      · simp [hl]
      · exact emitsAfterWrites_split _ _ (NoEmit_append hb hn1) (NoWrite_append hw2 hr)
      · rcases hT e l2 ht with hne | ⟨pre, m, e0, hpre, hfm⟩
        · exact Or.inl (NoEmit_append (NoEmit_append hb hn1) (NoEmit_append hne hre))
        · exact Or.inr ⟨[Call.txBegin] ++ l1 ++ pre, m, e0, by simp [hpre], hfm⟩
  | diverge =>
    constructor
    · intro b r2 h
      simp [Transaction, hrun] at h
    · intro e2 r2 h
      simp [Transaction, hrun] at h

theorem EmitsInsideTx_fail {α : Type} (svc : message) (e : Err) :
    svc.EmitsInsideTx (Op.fail e : Op α) := by
  intro r
  constructor
  · intro a r1 h
    simp [Op.fail] at h
  · intro e1 r1 h
    simp [Op.fail] at h
    exact ⟨[], by simp [h.2], rfl, Or.inl NoEmit_nil⟩

theorem EmitsInsideTx_wrap {α : Type} (svc : message) (x : Op α) (msg : String)
    (hx : svc.EmitsInsideTx x) : svc.EmitsInsideTx (Op.wrap x msg) := by
  intro r
  cases hxr : x r with
  | ok a r1 =>
    constructor
    · intro b r2 h
      simp [Op.wrap, hxr] at h
      obtain ⟨h1, h2⟩ := h
      subst h1 h2
      exact (hx r).1 a r1 hxr
    · intro e r2 h
      simp [Op.wrap, hxr] at h
  | fail e r1 =>
    constructor
    · intro b r2 h
      simp [Op.wrap, hxr] at h
    · intro e2 r2 h
      simp [Op.wrap, hxr] at h
      obtain ⟨_, h2⟩ := h
      subst h2
      exact (hx r).2 e r1 hxr
  | diverge =>
    constructor
    · intro b r2 h
      simp [Op.wrap, hxr] at h
    · intro e2 r2 h
      simp [Op.wrap, hxr] at h

theorem emissionFailed_weaken (svc : message) (e : Err) (l : List Call)
    (h : svc.emissionFailed e l) :
    NoEmit l ∨ ∃ pre m e0, l = pre ++ [Call.evlMessage m] ∧
      svc.fault (Call.evlMessage m) = some e0 := by
  rcases h with h | ⟨pre, m, hl, hf⟩
  · exact Or.inl h
  · exact Or.inr ⟨pre, m, e, hl, hf⟩

/-- A closure that never fails after an emission, run inside `Transaction` with its error
wrapped: a failed run has handed over no event. -/
theorem wrap_Transaction_failsBeforeEmitting {α : Type} (fn : Op α) (msg : String)
    (hfn : EmitLast (fun _ l => NoEmit l) fn) :
    FailsBeforeEmitting (Op.wrap (Transaction fn) msg) := by
  intro r e r1 h
  unfold Op.wrap Transaction at h
  cases hrun : fn { r with log := r.log ++ [Call.txBegin] } with
  | ok a rX => simp [hrun] at h
  | diverge => simp [hrun] at h
  | fail e0 rX =>
    obtain ⟨l1, l2, hl, hn1, _, hn2⟩ := (hfn _).2 e0 rX hrun
    simp [hrun] at h
    refine ⟨[Call.txBegin] ++ l1 ++ l2 ++ [Call.txRollback], by simp [← h.2, hl], ?_⟩
    refine NoEmit_append (NoEmit_append (NoEmit_append ?_ hn1) hn2) ?_ <;>
    · intro d hd
      simp at hd
      subst hd
      rfl

/-! ## C5: emission and commit -/

/-- C5 (counterexample): `Create` of a reply to message 100 when the event service accepts
the event of the root and refuses the event of the new message (id 200).  The run ends with
the emitter's error and the rollback as its last call, the stores are back at their start,
and before that an event was handed over and accepted. -/
theorem Create_emits_then_rolls_back :
    (svcRefuse.Create 1 (some { ReplyTo := 100, Message := "re" }) repo0).err
      = some (Err.persistence 1) ∧
    (svcRefuse.Create 1 (some { ReplyTo := 100, Message := "re" }) repo0).repo.map
        (fun r => (r.log.any (fun c => c.isEmit && (svcRefuse.fault c).isNone),
                   r.log.getLast?, decide (r.messages = repo0.messages)))
      = some (true, some Call.txRollback, true) := by
  decide!

/-- C5 (amended): in every run of `Create`, `Update`, `Delete` or a flag toggle that
returns, the events are handed over inside the transaction and after the writes: no store
write follows an emission; a successful run ends with the commit, coming after the
emissions; and a failed run either handed over nothing, or its last two calls are an
emission the event service refused and the rollback.  A failed flag toggle has handed over
nothing. -/
theorem events_emitted_inside_transaction (svc : message) :
    (∀ fuel inp, svc.EmitsInsideTx (svc.Create fuel inp)) ∧
    (∀ inp, svc.EmitsInsideTx (svc.Update inp)) ∧
    (∀ ID, svc.EmitsInsideTx (svc.Delete ID)) ∧
    (∀ messageID flag remove, svc.EmitsInsideTx (svc.flag messageID flag remove)) ∧
    (∀ messageID flag remove, FailsBeforeEmitting (svc.flag messageID flag remove)) := by
  refine ⟨?_, ?_, ?_, ?_, ?_⟩
  · intro fuel inp
    unfold message.Create
    split
    · exact EmitsInsideTx_fail svc _
    · exact Transaction_emitsInsideTx svc _ (emissionFailed_weaken svc) _
        (createTx_emitLast svc fuel _)
  · intro inp
    unfold message.Update
    split
    · exact EmitsInsideTx_fail svc _
    · exact Transaction_emitsInsideTx svc _ (emissionFailed_weaken svc) _
        (updateTx_emitLast svc _)
  · intro ID
    exact Transaction_emitsInsideTx svc _ (emissionFailed_weaken svc) _
      (deleteTx_emitLast svc ID)
  · intro messageID flag remove
    unfold message.flag
    exact EmitsInsideTx_wrap svc _ _
      (Transaction_emitsInsideTx svc _ (fun _ _ h => Or.inl h) _
        (flagTx_emitLast svc messageID _ remove))
  · intro messageID flag remove
    unfold message.flag
    exact wrap_Transaction_failsBeforeEmitting _ _ (flagTx_emitLast svc messageID _ remove)

/-! ## C10: re-applying a flag toggle -/

/-- C10 (failing input): user 1 reacts to message 100 twice with the pin kind as the
reaction string.  Both calls succeed; the second lookup (owner 0) does not find the record
of the first call (owner 1), a second flag is created and a second event is emitted. -/
theorem React_twice_with_pin_kind_two_flags :
    ((Op.bind (svc1.React 100 "pin") (fun _ => svc1.React 100 "pin")) repo0).err = none ∧
    (svc1.React 100 "pin" repo0).repo.map
        (fun r => r.mflags.map (fun f => (f.ID, f.MessageID, f.UserID, f.Flag)))
      = some [(200, 100, 1, "pin")] ∧
    ((Op.bind (svc1.React 100 "pin") (fun _ => svc1.React 100 "pin")) repo0).repo.map
        (fun r => (r.mflags.map (fun f => (f.ID, f.MessageID, f.UserID, f.Flag)),
                   (r.log.filter Call.isEmit).length))
      = some ([(200, 100, 1, "pin"), (201, 100, 1, "pin")], 2) := by
  decide!

theorem mflagFindByFlag_run (svc : message) (messageID ownerID : Nat) (flag : String)
    (r : Repo) (hfl : svc.fault (Call.mflagFindByFlag messageID ownerID flag) = none) :
    svc.mflagFindByFlag messageID ownerID flag r
      = Outcome.ok
          (match r.mflags.find? (flagKey messageID ownerID flag) with
           | some f => (f, none)
           | none => ({}, some Err.ErrMessageFlagNotFound))
          (r.logged [Call.mflagFindByFlag messageID ownerID flag]) := by
  unfold message.mflagFindByFlag
  simp only [hfl]
  cases r.mflags.find? (flagKey messageID ownerID flag) <;> rfl

theorem wrap_Transaction_ok {α : Type} (fn : Op α) (msg : String) (r r1 : Repo) (a : α)
    (h : Op.wrap (Transaction fn) msg r = Outcome.ok a r1) :
    ∃ rX, fn (r.logged [Call.txBegin]) = Outcome.ok a rX ∧ r1 = rX.logged [Call.txCommit] := by
  unfold Op.wrap Transaction at h
  have hr : ({ r with log := r.log ++ [Call.txBegin] } : Repo) = r.logged [Call.txBegin] := rfl
  rw [hr] at h
  cases hfn : fn (r.logged [Call.txBegin]) with
  | ok b rX =>
    simp [hfn] at h
    exact ⟨rX, by rw [h.1], by rw [← h.2]; rfl⟩
  | fail e rX => simp [hfn] at h
  | diverge => simp [hfn] at h

theorem wrap_Transaction_of_ok {α : Type} (fn : Op α) (msg : String) (r rX : Repo) (a : α)
    (h : fn (r.logged [Call.txBegin]) = Outcome.ok a rX) :
    Op.wrap (Transaction fn) msg r = Outcome.ok a (rX.logged [Call.txCommit]) := by
  unfold Op.wrap Transaction
  have hr : ({ r with log := r.log ++ [Call.txBegin] } : Repo) = r.logged [Call.txBegin] := rfl
  rw [hr, h]
  rfl

/-- Adding a flag that exists (lookup finds a record with a non-zero id): the call
succeeds, no store changes, and the only calls are begin, the lookup and commit. -/
theorem flag_add_existing (svc : message) (messageID : Nat) (flag : String) (r : Repo)
    (f : MessageFlag) (hnb : TrimSpace flag ≠ "")
    (hfl : svc.fault (Call.mflagFindByFlag messageID (svc.flagOwnerId flag) flag) = none)
    (hfind : r.mflags.find? (flagKey messageID (svc.flagOwnerId flag) flag) = some f)
    (hpos : 0 < f.ID) :
    svc.flag messageID flag false r
      = Outcome.ok () (r.logged [Call.txBegin,
          Call.mflagFindByFlag messageID (svc.flagOwnerId flag) flag, Call.txCommit]) := by
  have hne : f.ID ≠ 0 := by omega
  have hTx : svc.flagTx messageID flag false (r.logged [Call.txBegin])
      = Outcome.ok () ((r.logged [Call.txBegin]).logged
          [Call.mflagFindByFlag messageID (svc.flagOwnerId flag) flag]) := by
    unfold message.flagTx
    rw [Op.bind_of_ok _ _ _ _ _ (mflagFindByFlag_run svc _ _ _ _ hfl)]
    have hfind2 : (r.logged [Call.txBegin]).mflags.find?
        (flagKey messageID (svc.flagOwnerId flag) flag) = some f := hfind
    simp [hfind2, hne, hpos, Pure.pure]
  have hb : (TrimSpace flag == "") = false := by simp [hnb]
  unfold message.flag
  simp only [hb, Bool.false_eq_true, if_false]
  rw [wrap_Transaction_of_ok _ _ _ _ _ hTx]
  simp [Repo.logged]

/-- Removing a flag that does not exist (lookup hands back a record with id 0): the call
succeeds, no store changes, and the only calls are begin, the lookup and commit. -/
theorem flag_remove_missing (svc : message) (messageID : Nat) (flag : String) (r : Repo)
    (hnb : TrimSpace flag ≠ "")
    (hnone : svc.fault (Call.mflagFindByFlag messageID (svc.flagOwnerId flag) flag) = none →
      ∀ f, r.mflags.find? (flagKey messageID (svc.flagOwnerId flag) flag) = some f →
        f.ID = 0) :
    svc.flag messageID flag true r
      = Outcome.ok () (r.logged [Call.txBegin,
          Call.mflagFindByFlag messageID (svc.flagOwnerId flag) flag, Call.txCommit]) := by
  have hTx : svc.flagTx messageID flag true (r.logged [Call.txBegin])
      = Outcome.ok () ((r.logged [Call.txBegin]).logged
          [Call.mflagFindByFlag messageID (svc.flagOwnerId flag) flag]) := by
    unfold message.flagTx message.mflagFindByFlag
    cases hfl : svc.fault (Call.mflagFindByFlag messageID (svc.flagOwnerId flag) flag) with
    | some e => simp [Op.bind, Pure.pure, Repo.logged]
    | none =>
      cases hfind : r.mflags.find? (flagKey messageID (svc.flagOwnerId flag) flag) with
      | none => simp [Op.bind, Pure.pure, Repo.logged, hfind]
      | some f => simp [Op.bind, Pure.pure, Repo.logged, hfind, hnone hfl f hfind]
  have hb : (TrimSpace flag == "") = false := by simp [hnb]
  unfold message.flag
  simp only [hb, Bool.false_eq_true, if_false]
  rw [wrap_Transaction_of_ok _ _ _ _ _ hTx]
  simp [Repo.logged]

/-- The flag event hand-over with its error dropped always returns, with one call. -/
theorem attempt_sendFlagEvent (svc : message) (f : MessageFlag) (r : Repo) :
    ∃ res, Op.attempt (svc.sendFlagEvent [f]) r
      = Outcome.ok res (r.logged [Call.evlMessageFlag f]) := by
  cases hfe : svc.fault (Call.evlMessageFlag f) with
  | some e =>
    exact ⟨Except.error e, by
      simp [Op.attempt, message.sendFlagEvent, walk, Op.bind, message.evlMessageFlag, call_read,
        hfe]⟩
  | none =>
    exact ⟨Except.ok (), by
      simp [Op.attempt, message.sendFlagEvent, walk, Op.bind, message.evlMessageFlag, call_read,
        hfe, Pure.pure]⟩

/-- After a successful add of a kind other than the pin kind, the lookup finds a record
with a non-zero id (ids in the store and the next id being non-zero). -/
theorem flagTx_add_leaves_flag (svc : message) (messageID : Nat) (flag : String)
    (r rX : Repo) (hnp : flag ≠ svc.MessageFlagPinnedToChannel)
    (hfl : svc.fault (Call.mflagFindByFlag messageID (svc.flagOwnerId flag) flag) = none)
    (hids : ∀ f ∈ r.mflags, 0 < f.ID) (hnext : 0 < r.nextID)
    (hX : svc.flagTx messageID flag false r = Outcome.ok () rX) :
    ∃ f, rX.mflags.find? (flagKey messageID (svc.flagOwnerId flag) flag) = some f ∧
      0 < f.ID := by
  have howner : svc.flagOwnerId flag = svc.currentUserID := by
    simp [message.flagOwnerId, hnp]
  unfold message.flagTx at hX
  rw [Op.bind_of_ok _ _ _ _ _ (mflagFindByFlag_run svc _ _ _ _ hfl)] at hX
  cases hfind : r.mflags.find? (flagKey messageID (svc.flagOwnerId flag) flag) with
  | some f =>
    have hpos : 0 < f.ID := hids f (List.mem_of_find?_eq_some hfind)
    have hne : f.ID ≠ 0 := by omega
    simp [hfind, hne, hpos, Pure.pure] at hX
    subst hX
    exact ⟨f, hfind, hpos⟩
  | none =>
    simp only [hfind] at hX
    simp at hX
    cases hfm : svc.fault (Call.FindMessageByID messageID) with
    | some e =>
      simp [Op.bind, message.FindMessageByID, message.call, hfm] at hX
    | none =>
      cases hm : MessageSet.FindByID r.messages messageID with
      | none =>
        simp [Op.bind, message.FindMessageByID, message.call, hfm, hm, Repo.logged] at hX
      | some msg =>
        have hmid : msg.ID = messageID := FindByID_id hm
        rw [Op.bind_of_ok _ _ _ _ _ (FindMessageByID_found svc messageID _ msg hfm
          (by simpa [Repo.logged] using hm))] at hX
        cases hfc : svc.fault (Call.mflagCreate (svc.newFlag msg flag)) with
        | some e =>
          simp [Op.bind, message.mflagCreate, message.call, hfc] at hX
        | none =>
          let f1 : MessageFlag := { svc.newFlag msg flag with ID := r.nextID }
          have hB : ∃ rB, svc.mflagCreate (svc.newFlag msg flag)
              { (r.logged [Call.mflagFindByFlag messageID (svc.flagOwnerId flag) flag]) with
                log := (r.logged [Call.mflagFindByFlag messageID (svc.flagOwnerId flag) flag]).log
                  ++ [Call.FindMessageByID messageID] }
              = Outcome.ok f1 rB ∧ rB.mflags = r.mflags ++ [f1] :=
            ⟨_, by simp [message.mflagCreate, message.call, hfc, Repo.logged, f1]; rfl, rfl⟩
          obtain ⟨rB, hB1, hB2⟩ := hB
          obtain ⟨res, hres⟩ := attempt_sendFlagEvent svc f1 rB
          rw [Op.bind_of_ok _ _ _ _ _ hB1, Op.bind_of_ok _ _ _ _ _ hres] at hX
          simp [Pure.pure] at hX
          refine ⟨f1, ?_, hnext⟩
          rw [← hX]
          simp only [Repo.logged]
          rw [hB2, List.find?_append, hfind]
          simp [flagKey, howner, hmid, message.newFlag, f1]

/-- A second `React` after a successful one, for a reaction other than the pin kind: it
succeeds, the only calls are begin, the lookup and commit, and no store changes. -/
theorem React_again_is_noop (svc : message) (messageID : Nat) (reaction : String)
    (r r1 : Repo) (hnb : TrimSpace reaction ≠ "")
    (hnp : reaction ≠ svc.MessageFlagPinnedToChannel)
    (hfl : svc.fault (Call.mflagFindByFlag messageID (svc.flagOwnerId reaction) reaction) = none)
    (hids : ∀ f ∈ r.mflags, 0 < f.ID) (hnext : 0 < r.nextID)
    (hfirst : svc.React messageID reaction r = Outcome.ok () r1) :
    svc.React messageID reaction r1
      = Outcome.ok () (r1.logged [Call.txBegin,
          Call.mflagFindByFlag messageID (svc.flagOwnerId reaction) reaction, Call.txCommit]) := by
  have hb : (TrimSpace reaction == "") = false := by simp [hnb]
  unfold message.React message.flag at hfirst
  simp only [hb, Bool.false_eq_true, if_false] at hfirst
  obtain ⟨rX, hX, hr1⟩ := wrap_Transaction_ok _ _ _ _ _ hfirst
  obtain ⟨f, hf, hpos⟩ := flagTx_add_leaves_flag svc messageID reaction
    (r.logged [Call.txBegin]) rX hnp hfl hids hnext hX
  exact flag_add_existing svc messageID reaction r1 f hnb hfl (by rw [hr1]; exact hf) hpos

theorem FindMessageByID_ok_state (svc : message) (id : Nat) (r r1 : Repo) (m : Message)
    (h : svc.FindMessageByID id r = Outcome.ok m r1) :
    r1 = r.logged [Call.FindMessageByID id] ∧ MessageSet.FindByID r.messages id = some m := by
  cases hf : svc.fault (Call.FindMessageByID id) with
  | some e => simp [message.FindMessageByID, message.call, hf] at h
  | none =>
    cases hm : MessageSet.FindByID r.messages id with
    | none => simp [message.FindMessageByID, message.call, hf, hm] at h
    | some m0 =>
      simp [message.FindMessageByID, message.call, hf, hm] at h
      exact ⟨by rw [← h.2]; rfl, by rw [h.1]⟩

/-- After a successful removal the lookup finds no record with a non-zero id, when the
records with this lookup identity all carry one id. -/
theorem flagTx_remove_leaves_none (svc : message) (messageID : Nat) (flag : String)
    (r rX : Repo)
    (hfl : svc.fault (Call.mflagFindByFlag messageID (svc.flagOwnerId flag) flag) = none)
    (huniq : ∀ a ∈ r.mflags, ∀ b ∈ r.mflags,
      flagKey messageID (svc.flagOwnerId flag) flag a = true →
      flagKey messageID (svc.flagOwnerId flag) flag b = true → a.ID = b.ID)
    (hX : svc.flagTx messageID flag true r = Outcome.ok () rX) :
    ∀ g, rX.mflags.find? (flagKey messageID (svc.flagOwnerId flag) flag) = some g →
      g.ID = 0 := by
  unfold message.flagTx at hX
  rw [Op.bind_of_ok _ _ _ _ _ (mflagFindByFlag_run svc _ _ _ _ hfl)] at hX
  cases hfind : r.mflags.find? (flagKey messageID (svc.flagOwnerId flag) flag) with
  | none =>
    simp [hfind, Pure.pure] at hX
    subst hX
    intro g hg
    simp [Repo.logged, hfind] at hg
  | some f =>
    by_cases hz : f.ID = 0
    · simp [hfind, hz, Pure.pure] at hX
      subst hX
      intro g hg
      simp only [Repo.logged, hfind] at hg
      cases hg
      exact hz
    · have hpos : 0 < f.ID := by omega
      simp only [hfind] at hX
      simp [hz] at hX
      cases hfm : svc.FindMessageByID messageID
          (r.logged [Call.mflagFindByFlag messageID (svc.flagOwnerId flag) flag]) with
      | fail e rM => simp [Op.bind, hfm] at hX
      | diverge => simp [Op.bind, hfm] at hX
      | ok msg rM =>
        have hrM : rM.mflags = r.mflags := by
          rw [(FindMessageByID_ok_state svc messageID _ rM msg hfm).1]
          rfl
        rw [Op.bind_of_ok _ _ _ _ _ hfm] at hX
        cases hfd : svc.fault (Call.mflagDeleteByID f.ID) with
        | some e => simp [Op.bind, message.mflagDeleteByID, message.call, hfd] at hX
        | none =>
          have hD : svc.mflagDeleteByID f.ID rM
              = Outcome.ok () { rM with mflags := rM.mflags.filter (fun x => x.ID != f.ID),
                                        log := rM.log ++ [Call.mflagDeleteByID f.ID] } := by
            simp [message.mflagDeleteByID, message.call, hfd]
          obtain ⟨res, hres⟩ := attempt_sendFlagEvent svc { f with DeletedAt := some svc.timeNow }
            { rM with mflags := rM.mflags.filter (fun x => x.ID != f.ID),
                      log := rM.log ++ [Call.mflagDeleteByID f.ID] }
          rw [Op.bind_of_ok _ _ _ _ _ hD, Op.bind_of_ok _ _ _ _ _ hres] at hX
          simp [Pure.pure] at hX
          subst hX
          intro g hg
          simp only [Repo.logged, hrM] at hg
          have hgmem := List.mem_of_find?_eq_some hg
          have hgkey := List.find?_some hg
          obtain ⟨hgr, hgne⟩ := List.mem_filter.1 hgmem
          have hfkey := List.find?_some hfind
          have := huniq g hgr f (List.mem_of_find?_eq_some hfind) hgkey hfkey
          simp [this] at hgne

/-- A second `RemoveReaction` after a successful one: it succeeds, the only calls are
begin, the lookup and commit, and no store changes (the records with this lookup identity
all carrying one id before the first removal). -/
theorem RemoveReaction_again_is_noop (svc : message) (messageID : Nat) (reaction : String)
    (r r1 : Repo) (hnb : TrimSpace reaction ≠ "")
    (huniq : ∀ a ∈ r.mflags, ∀ b ∈ r.mflags,
      flagKey messageID (svc.flagOwnerId reaction) reaction a = true →
      flagKey messageID (svc.flagOwnerId reaction) reaction b = true → a.ID = b.ID)
    (hfirst : svc.RemoveReaction messageID reaction r = Outcome.ok () r1) :
    svc.RemoveReaction messageID reaction r1
      = Outcome.ok () (r1.logged [Call.txBegin,
          Call.mflagFindByFlag messageID (svc.flagOwnerId reaction) reaction, Call.txCommit]) := by
  have hb : (TrimSpace reaction == "") = false := by simp [hnb]
  unfold message.RemoveReaction message.flag at hfirst
  simp only [hb, Bool.false_eq_true, if_false] at hfirst
  obtain ⟨rX, hX, hr1⟩ := wrap_Transaction_ok _ _ _ _ _ hfirst
  refine flag_remove_missing svc messageID reaction r1 hnb ?_
  intro hfl g hg
  rw [hr1] at hg
  exact flagTx_remove_leaves_none svc messageID reaction (r.logged [Call.txBegin]) rX hfl huniq
    hX g hg

/-! ## C12: a failing flag lookup -/

/-- Adding a flag when the lookup fails with an error other than "flag not found": the
call exits with that error, wrapped, after begin, the lookup and the rollback. -/
theorem flag_add_lookup_error (svc : message) (messageID : Nat) (flag : String) (r : Repo)
    (e : Err) (hnb : TrimSpace flag ≠ "")
    (hfl : svc.fault (Call.mflagFindByFlag messageID (svc.flagOwnerId flag) flag) = some e)
    (hne : e ≠ Err.ErrMessageFlagNotFound) :
    svc.flag messageID flag false r
      = Outcome.fail (Err.wrap e "Can not flag/un-flag message")
          (r.logged [Call.txBegin,
            Call.mflagFindByFlag messageID (svc.flagOwnerId flag) flag, Call.txRollback]) := by
  have hb : (TrimSpace flag == "") = false := by simp [hnb]
  unfold message.flag
  simp only [hb, Bool.false_eq_true, if_false]
  simp [Op.wrap, Transaction, message.flagTx, message.mflagFindByFlag, hfl, Op.bind, Op.fail,
    hne, Repo.logged]

/-- Removing a flag when the lookup fails, with whatever error: the call reports success
after begin, the lookup and the commit, and no store has changed. -/
theorem flag_remove_lookup_error (svc : message) (messageID : Nat) (flag : String) (r : Repo)
    (e : Err) (hnb : TrimSpace flag ≠ "")
    (hfl : svc.fault (Call.mflagFindByFlag messageID (svc.flagOwnerId flag) flag) = some e) :
    svc.flag messageID flag true r
      = Outcome.ok () (r.logged [Call.txBegin,
          Call.mflagFindByFlag messageID (svc.flagOwnerId flag) flag, Call.txCommit]) := by
  refine flag_remove_missing svc messageID flag r hnb ?_
  intro hnone
  rw [hfl] at hnone
  cases hnone

/-- C12 (failing input): message 100 carries a "like" of user 1, a pin and a bookmark of
user 1, and the flag lookup fails with a persistence error.  `RemoveReaction`, `RemovePin`
and `RemoveBookmark` each return without an error, commit, and leave the three flags in
the store; `React` with the same failing lookup returns the wrapped error. -/
theorem Remove_with_failing_lookup_reports_success :
    (svcLookupDown.mflagFindByFlag 100 1 "like" repoFlagged).val
      = some ({}, some (Err.persistence 7)) ∧
    (svcLookupDown.RemoveReaction 100 "like" repoFlagged).err = none ∧
    (svcLookupDown.RemoveReaction 100 "like" repoFlagged).repo.map
        (fun r => (r.mflags.map (fun f => f.ID), r.log))
      = some ([150, 151, 152],
          [Call.txBegin, Call.mflagFindByFlag 100 1 "like", Call.txCommit]) ∧
    (svcLookupDown.RemovePin 100 repoFlagged).err = none ∧
    (svcLookupDown.RemovePin 100 repoFlagged).repo.map (fun r => r.mflags.map (fun f => f.ID))
      = some [150, 151, 152] ∧
    (svcLookupDown.RemoveBookmark 100 repoFlagged).err = none ∧
    (svcLookupDown.RemoveBookmark 100 repoFlagged).repo.map
        (fun r => r.mflags.map (fun f => f.ID))
      = some [150, 151, 152] ∧
    (svcLookupDown.React 100 "like" repoFlagged).err
      = some (Err.wrap (Err.persistence 7) "Can not flag/un-flag message") := by
  decide!

/-! ## Mention synchronisation: the calls issued -/

/-- A walk whose callback issues exactly one call per element: a complete walk records
the calls of all elements in order; a failed walk records the calls of the elements up to
the one that failed. -/
theorem walk_calls {α : Type} (f : α → Op Unit) (c : α → Call)
    (hf : ∀ a r, (∃ r1, f a r = Outcome.ok () r1 ∧ r1.log = r.log ++ [c a]) ∨
      (∃ e r1, f a r = Outcome.fail e r1 ∧ r1.log = r.log ++ [c a])) :
    ∀ (l : List α) (r : Repo),
      (∃ r1, walk f l r = Outcome.ok () r1 ∧ r1.log = r.log ++ l.map c) ∨
      (∃ e r1 done rest, walk f l r = Outcome.fail e r1 ∧ r1.log = r.log ++ done ∧
        l.map c = done ++ rest) := by
  intro l
  induction l with
  | nil =>
    intro r
    exact Or.inl ⟨r, rfl, by simp⟩
  | cons a t ih =>
    intro r
    rcases hf a r with ⟨r1, h1, hl1⟩ | ⟨e, r1, h1, hl1⟩
    · rcases ih r1 with ⟨r2, h2, hl2⟩ | ⟨e, r2, done, rest, h2, hl2, hsplit⟩
      · refine Or.inl ⟨r2, ?_, ?_⟩
        · simp only [walk]
          rw [Op.bind_of_ok _ _ _ _ _ h1, h2]
        · rw [hl2, hl1]
          simp
      · refine Or.inr ⟨e, r2, c a :: done, rest, ?_, ?_, ?_⟩
        · simp only [walk]
          rw [Op.bind_of_ok _ _ _ _ _ h1, h2]
        · rw [hl2, hl1]
          simp
        · simp [hsplit]
    · refine Or.inr ⟨e, r1, [c a], t.map c, ?_, hl1, by simp⟩
      simp only [walk]
      rw [Op.bind_of_fail _ _ _ _ _ h1]

theorem createStep_call (svc : message) (m : Mention) (r : Repo) :
    (∃ r1, Op.bind (svc.mentionsCreate m) (fun _ => (pure () : Op Unit)) r = Outcome.ok () r1 ∧
      r1.log = r.log ++ [Call.mentionsCreate m]) ∨
    (∃ e r1, Op.bind (svc.mentionsCreate m) (fun _ => (pure () : Op Unit)) r
        = Outcome.fail e r1 ∧ r1.log = r.log ++ [Call.mentionsCreate m]) := by
  cases hfc : svc.fault (Call.mentionsCreate m) with
  | some e =>
    refine Or.inr ⟨e, r.logged [Call.mentionsCreate m], ?_, rfl⟩
    simp [Op.bind, message.mentionsCreate, message.call, hfc, Repo.logged]
  | none =>
    let m1 : Mention := { m with ID := r.nextID }
    refine Or.inl ⟨{ r with mentions := r.mentions ++ [m1], nextID := r.nextID + 1,
                            log := r.log ++ [Call.mentionsCreate m] }, ?_, rfl⟩
    simp [Op.bind, message.mentionsCreate, message.call, hfc, Pure.pure, m1]

theorem deleteStep_call (svc : message) (m : Mention) (r : Repo) :
    (∃ r1, svc.mentionsDeleteByID m.ID r = Outcome.ok () r1 ∧
      r1.log = r.log ++ [Call.mentionsDeleteByID m.ID]) ∨
    (∃ e r1, svc.mentionsDeleteByID m.ID r = Outcome.fail e r1 ∧
      r1.log = r.log ++ [Call.mentionsDeleteByID m.ID]) := by
  cases hfc : svc.fault (Call.mentionsDeleteByID m.ID) with
  | some e =>
    refine Or.inr ⟨e, r.logged [Call.mentionsDeleteByID m.ID], ?_, rfl⟩
    simp [message.mentionsDeleteByID, message.call, hfc, Repo.logged]
  | none =>
    refine Or.inl ⟨{ r with mentions := r.mentions.filter (fun x => x.ID != m.ID),
                            log := r.log ++ [Call.mentionsDeleteByID m.ID] }, ?_, rfl⟩
    simp [message.mentionsDeleteByID, message.call, hfc]

theorem wrap_of_ok {α : Type} (x : Op α) (msg : String) (r r1 : Repo) (a : α)
    (h : x r = Outcome.ok a r1) : Op.wrap x msg r = Outcome.ok a r1 := by
  simp [Op.wrap, h]

theorem wrap_of_fail {α : Type} (x : Op α) (msg : String) (r r1 : Repo) (e : Err)
    (h : x r = Outcome.fail e r1) : Op.wrap x msg r = Outcome.fail (Err.wrap e msg) r1 := by
  simp [Op.wrap, h]

/-- The lookup of `updateMentions` answers with the persisted mentions of the message. -/
theorem mentionsFindByMessageIDs_one (svc : message) (messageID : Nat) (r : Repo)
    (hf : svc.fault (Call.mentionsFindByMessageIDs [messageID]) = none) :
    svc.mentionsFindByMessageIDs [messageID] r
      = Outcome.ok (MentionSet.FindByMessageID r.mentions messageID)
          (r.logged [Call.mentionsFindByMessageIDs [messageID]]) := by
  have hE : r.mentions.filter (fun m => [messageID].contains m.MessageID)
      = MentionSet.FindByMessageID r.mentions messageID := by
    unfold MentionSet.FindByMessageID
    apply List.filter_congr
    intro m _
    by_cases h : m.MessageID = messageID <;> simp [h]
  rw [message.mentionsFindByMessageIDs, call_read]
  simp only [hf]
  simp only [Repo.logged, hE]

/-- The branch of `updateMentions` for a non-empty new set, started after the lookup: a
complete run records one create per addition and then one delete per removal; a failed
run records an initial part of these calls. -/
theorem syncWrites_calls (svc : message) (add del : List Mention) (r : Repo) :
    (∃ r1, Op.bind (Op.wrap (walk (fun m => Op.bind (svc.mentionsCreate m) (fun _ => pure ()))
          add) "Could not create mentions") (fun _ =>
          Op.wrap (walk (fun m => svc.mentionsDeleteByID m.ID) del)
            "Could not delete mentions") r = Outcome.ok () r1 ∧
        r1.log = r.log ++ (add.map Call.mentionsCreate ++
          del.map (fun e => Call.mentionsDeleteByID e.ID))) ∨
    (∃ e r1 done rest, Op.bind (Op.wrap (walk (fun m => Op.bind (svc.mentionsCreate m)
          (fun _ => pure ())) add) "Could not create mentions") (fun _ =>
          Op.wrap (walk (fun m => svc.mentionsDeleteByID m.ID) del)
            "Could not delete mentions") r = Outcome.fail e r1 ∧
        r1.log = r.log ++ done ∧
        add.map Call.mentionsCreate ++ del.map (fun e => Call.mentionsDeleteByID e.ID)
          = done ++ rest) := by
  rcases walk_calls (fun m => Op.bind (svc.mentionsCreate m) (fun _ => (pure () : Op Unit)))
      Call.mentionsCreate (createStep_call svc) add r with
    ⟨r1, h1, hl1⟩ | ⟨e, r1, done, rest, h1, hl1, hsplit⟩
  · rcases walk_calls (fun (m : Mention) => svc.mentionsDeleteByID m.ID)
        (fun e => Call.mentionsDeleteByID e.ID) (deleteStep_call svc) del r1 with
      ⟨r2, h2, hl2⟩ | ⟨e, r2, done, rest, h2, hl2, hsplit⟩
    · refine Or.inl ⟨r2, ?_, ?_⟩
      · rw [Op.bind_of_ok _ _ _ _ _ (wrap_of_ok _ _ _ _ _ h1)]
        exact wrap_of_ok _ _ _ _ _ h2
      · rw [hl2, hl1, List.append_assoc]
    · refine Or.inr ⟨Err.wrap e "Could not delete mentions", r2,
        add.map Call.mentionsCreate ++ done, rest, ?_, ?_, ?_⟩
      · rw [Op.bind_of_ok _ _ _ _ _ (wrap_of_ok _ _ _ _ _ h1)]
        exact wrap_of_fail _ _ _ _ _ h2
      · rw [hl2, hl1, List.append_assoc]
      · rw [hsplit, List.append_assoc]
  · refine Or.inr ⟨Err.wrap e "Could not create mentions", r1, done,
      rest ++ del.map (fun e => Call.mentionsDeleteByID e.ID), ?_, hl1, ?_⟩
    · rw [Op.bind_of_fail _ _ _ _ _ (wrap_of_fail _ _ _ _ _ h1)]
    · rw [hsplit, List.append_assoc]

/-! ## C11: minimal writes of `updateMentions` -/

/-- C11: `updateMentions` for message `messageID` with persisted mentions `E` (those the
store holds for the message) and new set `N`.  A run that succeeds has issued exactly the
calls `mentionCalls`: the lookup, then for a non-empty `N` one create for each mention of
`N` whose identity is not in `E` and one delete for each mention of `E` whose identity is
not in `N`, and nothing for the mentions in both; for an empty `N` the one call that
deletes all mentions of the message, after which the store holds none of them.  A run that
fails has issued an initial part of these calls and no other call.  With working
collaborators the run succeeds. -/
theorem updateMentions_minimal_writes (svc : message) (messageID : Nat) (N : List Mention)
    (r : Repo) :
    (∀ r1, svc.updateMentions messageID N r = Outcome.ok () r1 →
      r1.log = r.log
        ++ mentionCalls messageID (MentionSet.FindByMessageID r.mentions messageID) N ∧
      (N = [] → r1.mentions = r.mentions.filter (fun m => m.MessageID != messageID))) ∧
    (∀ e r1, svc.updateMentions messageID N r = Outcome.fail e r1 →
      ∃ done rest, r1.log = r.log ++ done ∧
        mentionCalls messageID (MentionSet.FindByMessageID r.mentions messageID) N
          = done ++ rest) ∧
    ((∀ c, svc.fault c = none) → ∃ r1, svc.updateMentions messageID N r = Outcome.ok () r1) := by
  refine ⟨?_, ?_, ?_⟩
  case refine_3 =>
    intro hf
    obtain ⟨a, r1, h⟩ := updateMentions_ok svc hf messageID N r
    exact ⟨r1, h⟩
  all_goals
    cases hfl : svc.fault (Call.mentionsFindByMessageIDs [messageID]) with
    | some e0 =>
      have hrun : svc.updateMentions messageID N r
          = Outcome.fail (Err.wrap e0 "Could not update mentions")
              (r.logged [Call.mentionsFindByMessageIDs [messageID]]) := by
        have hfindF : svc.mentionsFindByMessageIDs [messageID] r
            = Outcome.fail e0 (r.logged [Call.mentionsFindByMessageIDs [messageID]]) := by
          rw [message.mentionsFindByMessageIDs, call_read]
          simp only [hfl]
        unfold message.updateMentions
        rw [Op.bind_of_fail _ _ _ _ _ (wrap_of_fail _ _ _ _ _ hfindF)]
      first
      | (intro r1 h
         rw [hrun] at h
         cases h)
      | (intro e r1 h
         rw [hrun] at h
         cases h
         exact ⟨[Call.mentionsFindByMessageIDs [messageID]], _, rfl, rfl⟩)
    | none =>
      have hfind := mentionsFindByMessageIDs_one svc messageID r hfl
      by_cases hpos : N.length > 0
      · have hrun : svc.updateMentions messageID N r
            = Op.bind (Op.wrap (walk (fun m => Op.bind (svc.mentionsCreate m) (fun _ => pure ()))
                (MentionSet.Diff (MentionSet.FindByMessageID r.mentions messageID) N).1)
                "Could not create mentions") (fun _ =>
                Op.wrap (walk (fun m => svc.mentionsDeleteByID m.ID)
                  (MentionSet.Diff (MentionSet.FindByMessageID r.mentions messageID) N).2.2)
                  "Could not delete mentions")
                (r.logged [Call.mentionsFindByMessageIDs [messageID]]) := by
          unfold message.updateMentions
          rw [Op.bind_of_ok _ _ _ _ _ (wrap_of_ok _ _ _ _ _ hfind)]
          simp only [hpos, if_true]
        have hcalls : mentionCalls messageID (MentionSet.FindByMessageID r.mentions messageID) N
            = Call.mentionsFindByMessageIDs [messageID] ::
                ((MentionSet.Diff (MentionSet.FindByMessageID r.mentions messageID) N).1.map
                    Call.mentionsCreate ++
                 (MentionSet.Diff (MentionSet.FindByMessageID r.mentions messageID) N).2.2.map
                    (fun e => Call.mentionsDeleteByID e.ID)) := by
          simp only [mentionCalls, hpos, if_true, MentionSet.Diff]
        rcases syncWrites_calls svc
            (MentionSet.Diff (MentionSet.FindByMessageID r.mentions messageID) N).1
            (MentionSet.Diff (MentionSet.FindByMessageID r.mentions messageID) N).2.2
            (r.logged [Call.mentionsFindByMessageIDs [messageID]]) with
          ⟨r2, h2, hl2⟩ | ⟨e2, r2, done, rest, h2, hl2, hsplit⟩
        · first
          | (intro r1 h
             rw [hrun, h2] at h
             cases h
             refine ⟨?_, ?_⟩
             · rw [hl2, hcalls]
               simp [Repo.logged]
             · intro hN
               rw [hN] at hpos
               simp at hpos)
          | (intro e r1 h
             rw [hrun, h2] at h
             cases h)
        · first
          | (intro r1 h
             rw [hrun, h2] at h
             cases h)
          | (intro e r1 h
             rw [hrun, h2] at h
             cases h
             refine ⟨Call.mentionsFindByMessageIDs [messageID] :: done, rest, ?_, ?_⟩
             · rw [hl2]
               simp [Repo.logged]
             · rw [hcalls, hsplit]
               simp)
      · have hN : N = [] := by
          cases N with
          | nil => rfl
          | cons a t => simp at hpos
        have hrun : svc.updateMentions messageID N r
            = svc.mentionsDeleteByMessageID messageID
                (r.logged [Call.mentionsFindByMessageIDs [messageID]]) := by
          unfold message.updateMentions
          rw [Op.bind_of_ok _ _ _ _ _ (wrap_of_ok _ _ _ _ _ hfind)]
          simp only [hpos, if_false]
        have hcalls : mentionCalls messageID (MentionSet.FindByMessageID r.mentions messageID) N
            = [Call.mentionsFindByMessageIDs [messageID],
               Call.mentionsDeleteByMessageID messageID] := by
          simp only [mentionCalls, hpos, if_false]
        cases hfd : svc.fault (Call.mentionsDeleteByMessageID messageID) with
        | some e0 =>
          have hD : svc.mentionsDeleteByMessageID messageID
              (r.logged [Call.mentionsFindByMessageIDs [messageID]])
              = Outcome.fail e0 (r.logged [Call.mentionsFindByMessageIDs [messageID],
                  Call.mentionsDeleteByMessageID messageID]) := by
            simp [message.mentionsDeleteByMessageID, message.call, hfd, Repo.logged]
          first
          | (intro r1 h
             rw [hrun, hD] at h
             cases h)
          | (intro e r1 h
             rw [hrun, hD] at h
             cases h
             exact ⟨_, [], rfl, by rw [hcalls]; simp⟩)
        | none =>
          have hD : svc.mentionsDeleteByMessageID messageID
              (r.logged [Call.mentionsFindByMessageIDs [messageID]])
              = Outcome.ok ()
                  { r with mentions := r.mentions.filter (fun m => m.MessageID != messageID),
                           log := r.log ++ [Call.mentionsFindByMessageIDs [messageID],
                             Call.mentionsDeleteByMessageID messageID] } := by
            simp [message.mentionsDeleteByMessageID, message.call, hfd, Repo.logged]
          first
          | (intro r1 h
             rw [hrun, hD] at h
             cases h
             exact ⟨by rw [hcalls], fun _ => rfl⟩)
          | (intro e r1 h
             rw [hrun, hD] at h
             cases h)

/-- Witness for C11: message 100 has the persisted mentions A and B, the new set is B, C.
The run succeeds and issues the lookup, a create for C and a delete for A (id 501), and
nothing for B; the store then holds B, the new C and the mention of message 101.  With an
empty new set the run deletes all mentions of message 100. -/
theorem updateMentions_minimal_writes_witness :
    (∃ r1, svc1.updateMentions 100 [newB, newC] repoAB = Outcome.ok () r1 ∧
      r1.log = repoAB.log ++ [Call.mentionsFindByMessageIDs [100], Call.mentionsCreate newC,
        Call.mentionsDeleteByID 501]) ∧
    (svc1.updateMentions 100 [newB, newC] repoAB).repo.map (fun r => r.mentions)
      = some [mentionZ, mentionB, { newC with ID := 600 }] ∧
    (∃ r1, svc1.updateMentions 100 [] repoAB = Outcome.ok () r1 ∧
      r1.log = repoAB.log ++ [Call.mentionsFindByMessageIDs [100],
        Call.mentionsDeleteByMessageID 100] ∧
      r1.mentions = [mentionZ]) := by
  refine ⟨?_, by decide!, ?_⟩
  · obtain ⟨r1, h⟩ :=
      (updateMentions_minimal_writes svc1 100 [newB, newC] repoAB).2.2 (fun _ => rfl)
    refine ⟨r1, h, ?_⟩
    rw [((updateMentions_minimal_writes svc1 100 [newB, newC] repoAB).1 r1 h).1]
    have hcalls : mentionCalls 100 (MentionSet.FindByMessageID repoAB.mentions 100)
        [newB, newC] = [Call.mentionsFindByMessageIDs [100], Call.mentionsCreate newC,
          Call.mentionsDeleteByID 501] := by decide
    rw [hcalls]
  · obtain ⟨r1, h⟩ := (updateMentions_minimal_writes svc1 100 [] repoAB).2.2 (fun _ => rfl)
    obtain ⟨hlog, hstore⟩ := (updateMentions_minimal_writes svc1 100 [] repoAB).1 r1 h
    refine ⟨r1, h, ?_, ?_⟩
    · rw [hlog]
      have hcalls : mentionCalls 100 (MentionSet.FindByMessageID repoAB.mentions 100) []
          = [Call.mentionsFindByMessageIDs [100], Call.mentionsDeleteByMessageID 100] := by
        decide
      rw [hcalls]
    · rw [hstore rfl]
      decide

end Crust
